import Mathlib

/-!
# Verification of the neurousers authentication and account service

A shallow embedding, in Lean 4, of the protocol core of the `neurousers`
repository: the Telegram login-widget signature verifier
(`validate_telegram_data`), the session-token codec and the login / refresh
endpoints (`app/routers/auth.py` and `app/api/routers/auth.py`), and the
internal sync gateway (`app/admin` endpoints: `internal_sync_required`,
`create_user`, `internal_debit_balance`).

Machine integers are modelled as `Nat`/`Int` with explicit reduction modulo
`2 ^ 32` where the SHA-256 arithmetic wraps.  The database is a list of user
rows; each endpoint is a pure function from (configuration, clock, database,
request) to (database, result), where a raised `HTTPException` becomes the
`Except.error` case.  SHA-256 and HMAC-SHA256 are implemented concretely,
byte for byte (FIPS 180-4 / RFC 2104); the JSON Web Token library (`jose`)
is external to the repository and is modelled as a symbolic codec that
records the claim set and expiry.
-/

namespace Neurousers

/-! ## Bytes, hex, UTF-8 -/

def M32 : Nat := 4294967296

def add32 (a b : Nat) : Nat := (a + b) % M32

def rotr32 (n x : Nat) : Nat := ((x >>> n) ||| (x <<< (32 - n))) % M32

def not32 (x : Nat) : Nat := x ^^^ 4294967295

def shaCh (x y z : Nat) : Nat := (x &&& y) ^^^ (not32 x &&& z)

def shaMaj (x y z : Nat) : Nat := (x &&& y) ^^^ (x &&& z) ^^^ (y &&& z)

def bigSigma0 (x : Nat) : Nat := rotr32 2 x ^^^ rotr32 13 x ^^^ rotr32 22 x

def bigSigma1 (x : Nat) : Nat := rotr32 6 x ^^^ rotr32 11 x ^^^ rotr32 25 x

def smallSigma0 (x : Nat) : Nat := rotr32 7 x ^^^ rotr32 18 x ^^^ (x >>> 3)

def smallSigma1 (x : Nat) : Nat := rotr32 17 x ^^^ rotr32 19 x ^^^ (x >>> 10)

/-- The 64 SHA-256 round constants (FIPS 180-4 §4.2.2). -/
def shaK : List Nat :=
  [1116352408, 1899447441, 3049323471, 3921009573, 961987163, 1508970993,
   2453635748, 2870763221, 3624381080, 310598401, 607225278, 1426881987,
   1925078388, 2162078206, 2614888103, 3248222580, 3835390401, 4022224774,
   264347078, 604807628, 770255983, 1249150122, 1555081692, 1996064986,
   2554220882, 2821834349, 2952996808, 3210313671, 3336571891, 3584528711,
   113926993, 338241895, 666307205, 773529912, 1294757372, 1396182291,
   1695183700, 1986661051, 2177026350, 2456956037, 2730485921, 2820302411,
   3259730800, 3345764771, 3516065817, 3600352804, 4094571909, 275423344,
   430227734, 506948616, 659060556, 883997877, 958139571, 1322822218,
   1537002063, 1747873779, 1955562222, 2024104815, 2227730452, 2361852424,
   2428436474, 2756734187, 3204031479, 3329325298]

/-- The eight-word SHA-256 working state. -/
structure H8 where
  a : Nat
  b : Nat
  c : Nat
  d : Nat
  e : Nat
  f : Nat
  g : Nat
  h : Nat
deriving Repr, DecidableEq

/-- The SHA-256 initial hash value (FIPS 180-4 §5.3.3). -/
def shaH0 : H8 :=
  ⟨0x6a09e667, 0xbb67ae85, 0x3c6ef372, 0xa54ff53a, 0x510e527f, 0x9b05688c, 0x1f83d9ab, 0x5be0cd19⟩

/-- Big-endian bytes of a value, fixed width `n` bytes. -/
def bytesBE : Nat → Nat → List Nat
  | 0, _ => []
  | n + 1, v => bytesBE n (v >>> 8) ++ [v &&& 255]

/-- SHA-256 padding: append `0x80`, zeros to 56 mod 64, then the 64-bit
big-endian bit length. -/
def padMessage (ms : List Nat) : List Nat :=
  let l := ms.length
  let zeros := (119 - (l % 64)) % 64
  ms ++ [0x80] ++ List.replicate zeros 0 ++ bytesBE 8 (8 * l)

/-- Group bytes into big-endian 32-bit words. -/
def bytesToWords : List Nat → List Nat
  | b0 :: b1 :: b2 :: b3 :: rest =>
      (((b0 * 256 + b1) * 256 + b2) * 256 + b3) :: bytesToWords rest
  | _ => []

/-- Split a word list into 16-word blocks; the fuel argument bounds the
recursion and is instantiated with more fuel than there are words. -/
def blocks16 : Nat → List Nat → List (List Nat)
  | 0, _ => []
  | _, [] => []
  | fuel + 1, ws => ws.take 16 :: blocks16 fuel (ws.drop 16)

/-- Extend the 16-word message schedule to 64 words (48 extension steps). -/
def extendW : Nat → List Nat → List Nat
  | 0, w => w
  | fuel + 1, w =>
      let t := w.length
      let nw := (smallSigma1 (w.getD (t - 2) 0) + w.getD (t - 7) 0 +
                 smallSigma0 (w.getD (t - 15) 0) + w.getD (t - 16) 0) % M32
      extendW fuel (w ++ [nw])

def compressStep (s : H8) (kw : Nat × Nat) : H8 :=
  let t1 := (s.h + bigSigma1 s.e + shaCh s.e s.f s.g + kw.1 + kw.2) % M32
  let t2 := (bigSigma0 s.a + shaMaj s.a s.b s.c) % M32
  ⟨(t1 + t2) % M32, s.a, s.b, s.c, (s.d + t1) % M32, s.e, s.f, s.g⟩

def compressBlock (s : H8) (w16 : List Nat) : H8 :=
  let w := extendW 48 w16
  let r := (shaK.zip w).foldl compressStep s
  ⟨add32 s.a r.a, add32 s.b r.b, add32 s.c r.c, add32 s.d r.d,
   add32 s.e r.e, add32 s.f r.f, add32 s.g r.g, add32 s.h r.h⟩

def h8Bytes (s : H8) : List Nat :=
  bytesBE 4 s.a ++ bytesBE 4 s.b ++ bytesBE 4 s.c ++ bytesBE 4 s.d ++
  bytesBE 4 s.e ++ bytesBE 4 s.f ++ bytesBE 4 s.g ++ bytesBE 4 s.h

/-- SHA-256 digest (32 bytes) of a byte list.  Checked during development
against the FIPS 180-4 test vectors for `"abc"`, the empty string and the
448-bit two-block message. -/
def sha256 (ms : List Nat) : List Nat :=
  let ws := bytesToWords (padMessage ms)
  h8Bytes ((blocks16 (ws.length + 1) ws).foldl compressBlock shaH0)

/-- HMAC-SHA256 (RFC 2104), block size 64 bytes.  Checked during development
against the RFC 4231 test vectors. -/
def hmacSha256 (key msg : List Nat) : List Nat :=
  let k0 := if key.length > 64 then sha256 key else key
  let kp := k0 ++ List.replicate (64 - k0.length) 0
  let ipad := kp.map (fun b => b ^^^ 0x36)
  let opad := kp.map (fun b => b ^^^ 0x5c)
  sha256 (opad ++ sha256 (ipad ++ msg))

def hexDigitChar (n : Nat) : Char :=
  if n < 10 then Char.ofNat (48 + n) else Char.ofNat (87 + n)

def byteHex (b : Nat) : List Char := [hexDigitChar (b / 16), hexDigitChar (b % 16)]

/-- Lowercase hexadecimal rendering of a byte list (Python `.hexdigest()`). -/
def bytesToHex (bs : List Nat) : String :=
  String.mk (bs.foldr (fun b acc => byteHex b ++ acc) [])

/-- UTF-8 encoding of one character (Python `str.encode()`). -/
def utf8Char (c : Char) : List Nat :=
  let n := c.toNat
  if n < 0x80 then [n]
  else if n < 0x800 then [0xC0 ||| (n >>> 6), 0x80 ||| (n &&& 0x3F)]
  else if n < 0x10000 then
    [0xE0 ||| (n >>> 12), 0x80 ||| ((n >>> 6) &&& 0x3F), 0x80 ||| (n &&& 0x3F)]
  else
    [0xF0 ||| (n >>> 18), 0x80 ||| ((n >>> 12) &&& 0x3F),
     0x80 ||| ((n >>> 6) &&& 0x3F), 0x80 ||| (n &&& 0x3F)]

def utf8Bytes (s : String) : List Nat :=
  s.data.foldr (fun c acc => utf8Char c ++ acc) []

/-! ## Python values and dictionaries

`validate_telegram_data` receives `data.model_dump()`: a Python dict whose
values are ints, strings or `None`.  Python truthiness (`if v`) and
`str(v)` rendering are modelled explicitly. -/

/-- A Python dict value as it occurs in the login payload dumps. -/
inductive PyVal where
  | vInt (n : Int)
  | vStr (s : String)
  | vNone
deriving Repr, DecidableEq

/-- Python truthiness: `0`, `""` and `None` are falsy. -/
def PyVal.truthy : PyVal → Bool
  | .vInt n => n != 0
  | .vStr s => s != ""
  | .vNone => false

/-- Python `str()` as used by the f-string `f"{k}={v}"`. -/
def PyVal.toStr : PyVal → String
  | .vInt n => toString n
  | .vStr s => s
  | .vNone => "None"

/-- Decimal digit value of a character, if any. -/
def decDigit? (c : Char) : Option Nat :=
  if 48 ≤ c.toNat ∧ c.toNat ≤ 57 then some (c.toNat - 48) else none

def digitsGo : List Char → Nat → Option Nat
  | [], acc => some acc
  | c :: rest, acc =>
    match decDigit? c with
    | some d => digitsGo rest (acc * 10 + d)
    | none => none

/-- `int(str)` on decimal strings (an optional leading minus, then digits);
`none` models the raised `ValueError`.  Python's extra tolerance (surrounding
whitespace, `+`, underscores) is never exercised: every string parsed by the
code is a `str(int)` the service produced itself. -/
def pyIntOfStr (s : String) : Option Int :=
  match s.data with
  | [] => none
  | c :: rest =>
    if c = '-' then
      match rest with
      | [] => none
      | _ => (digitsGo rest 0).map (fun n => -(n : Int))
    else (digitsGo (c :: rest) 0).map (fun n => (n : Int))

/-- Python `int()` coercion; `none` models a raised `TypeError`/`ValueError`. -/
def PyVal.toInt : PyVal → Option Int
  | .vInt n => some n
  | .vStr s => pyIntOfStr s
  | .vNone => none

/-- A Python dict with string keys, in insertion order; keys are unique in
every dict the endpoints build. -/
abbrev Dict := List (String × PyVal)

/-- `data.get(k)` / `data[k]`. -/
def dictGet (k : String) (d : Dict) : Option PyVal :=
  match d.find? (fun kv => kv.1 == k) with
  | some kv => some kv.2
  | none => none

/-- The dict after `data.pop(k, None)` (keys are unique, so erasing the first
occurrence is erasing the key). -/
def dictErase (k : String) (d : Dict) : Dict :=
  List.eraseP (fun kv => kv.1 == k) d

/-- An `Option PyVal` is truthy when the key was present with a truthy value
(`if not received_hash` is false). -/
def optTruthy : Option PyVal → Bool
  | some v => v.truthy
  | none => false

/-- `x is None`: the key is absent or holds `None`. -/
def optIsNone : Option PyVal → Bool
  | some .vNone => true
  | some _ => false
  | none => true

/-- Insert a key-value pair into a key-sorted list, preserving order. -/
def insortPair (p : String × PyVal) : List (String × PyVal) → List (String × PyVal)
  | [] => [p]
  | q :: rest => if p.1 < q.1 then p :: q :: rest else q :: insortPair p rest

/-- `sorted(data.items())`: ascending by key (keys are unique, so the value
component never participates in the comparison). -/
def sortPairs : List (String × PyVal) → List (String × PyVal)
  | [] => []
  | p :: rest => insortPair p (sortPairs rest)

/-- The canonical check string of §4.1:
`"\n".join(f"{k}={v}" for k, v in sorted(data.items()) if v)`. -/
def dataCheckString (d : Dict) : String :=
  String.intercalate "\n"
    (((sortPairs d).filter (fun kv => kv.2.truthy)).map (fun kv => kv.1 ++ "=" ++ kv.2.toStr))

/-- All characters ASCII (Python `str.isascii()`): `hmac.compare_digest` on
`str` arguments raises `TypeError` unless both strings are pure ASCII. -/
def isAsciiStr (s : String) : Bool := s.data.all (fun c => c.toNat < 128)

/-- `hmac.compare_digest(a, b)` on strings: a constant-time equality test,
defined only for ASCII arguments; `none` models the raised `TypeError`. -/
def compare_digest (a b : String) : Option Bool :=
  if isAsciiStr a && isAsciiStr b then some (a == b) else none

/-! ## Errors -/

/-- An HTTP error as raised by `HTTPException(status, detail)`; an uncaught
Python exception surfaces as status 500. -/
structure HErr where
  status : Nat
  detail : String
deriving Repr, DecidableEq

def noHashErr : HErr := ⟨400, "No hash in Telegram data"⟩

def expiredErr : HErr := ⟨400, "Telegram authentication session is expired"⟩

def mismatchErr : HErr := ⟨400, "Telegram data signature mismatch"⟩

def internalErr : HErr := ⟨500, "Internal Server Error"⟩

/-! ## The signature verifier (`validate_telegram_data`) -/

/-- The HMAC-SHA256 hex signature prescribed by the Telegram login-widget
protocol: keyed by the SHA-256 digest of the UTF-8 bot token, over the
UTF-8 canonical check string. -/
def telegramHash (botToken checkString : String) : String :=
  bytesToHex (hmacSha256 (sha256 (utf8Bytes botToken)) (utf8Bytes checkString))

/-- `int(auth_date)` applied to the looked-up value; `none` is a raised
conversion error. -/
def authDateInt (d : Dict) : Option Int :=
  match dictGet "auth_date" d with
  | some v => v.toInt
  | none => none

/-- `hmac.compare_digest(generated_hash, received_hash)` as the final guard of
the verifier: a mismatch raises the signature-mismatch error, a raised
`TypeError` (non-ASCII argument) an internal error. -/
def sigCheck (generated r : String) : Except HErr Unit :=
  match compare_digest generated r with
  | some true => .ok ()
  | some false => .error mismatchErr
  | none => .error internalErr

/-- Shape analysis of the popped `hash` value: `compare_digest` accepts two
`str` arguments and raises otherwise.  A truthy non-string value (an `int`)
is an internal error. -/
def hashCheck (generated : String) : Option PyVal → Except HErr Unit
  | some (.vStr r) => sigCheck generated r
  | _ => .error internalErr

/-- `validate_telegram_data(data)` from `app/routers/auth.py` (the copy in
`app/api/routers/auth.py` is textually identical).  `now` is
`int(time.time())` at verification time. -/
def validate_telegram_data (now : Int) (botToken : String) (data : Dict) : Except HErr Unit :=
  if optTruthy (dictGet "hash" data) = false then .error noHashErr
  else if optIsNone (dictGet "auth_date" (dictErase "hash" data)) = true then .error expiredErr
  else
    match authDateInt (dictErase "hash" data) with
    | none => .error internalErr
    | some a =>
      if 86400 < now - a then .error expiredErr
      else
        hashCheck (telegramHash botToken (dataCheckString (dictErase "hash" data)))
          (dictGet "hash" data)

/-! ## Configuration and token codec

`config.api.jwt` supplies the signing secret, algorithm and lifetimes;
`config.api.bot.token` the bot secret; `_is_local_dev_env()` tests whether
`config.api.url` names localhost.  The `jose` JWT library is external to the
repository: it is modelled as a symbolic codec in which an encoded token
records exactly its claim set (`sub`, `real_sub`, `impersonated`, `exp`) and
a decoded token yields it back, with `garbage` standing for any string that
fails signature or structural checks. -/

structure Config where
  /-- `_is_local_dev_env()`: `config.api.url` contains `localhost` or `127.0.0.1`. -/
  isLocalDev : Bool
  /-- `config.api.bot.token.get_secret_value()`. -/
  botToken : String
  /-- `config.api.jwt.expire_seconds`. -/
  expireSeconds : Int
  /-- `config.api.jwt.refresh_expire_days`. -/
  refreshExpireDays : Int

/-- The flat claim set carried by both token variants.  `create_access_token`
and `create_refresh_token` receive a dict and add `exp`; this structure is
that dict, with absent keys as `none`/`false`. -/
structure ClaimsIn where
  sub : Option String := none
  real_sub : Option String := none
  impersonated : Bool := false
deriving Repr, DecidableEq

/-- Decoded JWT claims: the input claim set plus the `exp` timestamp. -/
structure JwtClaims where
  sub : Option String := none
  real_sub : Option String := none
  impersonated : Bool := false
  exp : Int
deriving Repr, DecidableEq

/-- A token string, symbolically: either a well-signed token with its claims,
or a string that fails `jose`'s signature/structure checks. -/
inductive Tok where
  | tok (c : JwtClaims)
  | garbage
deriving Repr, DecidableEq

def tokenExpiredErr : HErr := ⟨401, "Token expired"⟩

def tokenInvalidErr : HErr := ⟨401, "Invalid token"⟩

/-- `create_access_token(data)`: copy the claims, set `exp = now + expire_seconds`. -/
def create_access_token (cfg : Config) (now : Int) (data : ClaimsIn) : Tok :=
  .tok { sub := data.sub, real_sub := data.real_sub, impersonated := data.impersonated,
         exp := now + cfg.expireSeconds }

/-- `create_refresh_token(data)`: copy the claims, set
`exp = now + refresh_expire_days` (a day being 86400 seconds). -/
def create_refresh_token (cfg : Config) (now : Int) (data : ClaimsIn) : Tok :=
  .tok { sub := data.sub, real_sub := data.real_sub, impersonated := data.impersonated,
         exp := now + cfg.refreshExpireDays * 86400 }

/-- `create_impersonation_tokens(target_user_id, admin_id)`. -/
def create_impersonation_tokens (cfg : Config) (now : Int) (target_user_id admin_id : Int) :
    Tok × Tok :=
  let claims : ClaimsIn :=
    { sub := some (toString target_user_id), real_sub := some (toString admin_id),
      impersonated := true }
  (create_access_token cfg now claims, create_refresh_token cfg now claims)

/-- `decode_token(token)`: expired signature gives 401 "Token expired", any
other `JWTError` gives 401 "Invalid token". -/
def decode_token (now : Int) : Tok → Except HErr JwtClaims
  | .tok c => if c.exp < now then .error tokenExpiredErr else .ok c
  | .garbage => .error tokenInvalidErr

/-- Python `str` truthiness of an optional string (`if not user_id`,
`if invite_ref_code`): present and non-empty. -/
def strOptTruthy : Option String → Bool
  | some s => s != ""
  | none => false

/-! ## The account model (`models/orm.py`) -/

/-- `Role(IntEnum)`: `USER = 0`, `ADMIN = 7`. -/
inductive Role where
  | USER
  | ADMIN
deriving Repr, DecidableEq

def Role.val : Role → Nat
  | .USER => 0
  | .ADMIN => 7

/-- One row of the `users` table.  `referred_by` is the nullable
foreign-key id; `license_end_date` a nullable timestamp. -/
structure UserRec where
  id : Int
  username : Option String := none
  first_name : Option String := none
  last_name : Option String := none
  photo_url : Option String := none
  role : Role := .USER
  license_end_date : Option Int := none
  balance : Int := 0
  ref_code : Option String := none
  referred_by : Option Int := none
  or_api_key : Option String := none
  or_api_hash : Option String := none
  or_model : Option String := none
deriving Repr, DecidableEq

abbrev DB := List UserRec

/-- `User.get_or_none(id=i)`. -/
def findById (db : DB) (i : Int) : Option UserRec :=
  List.find? (fun u => u.id == i) db

/-- `User.get_or_none(ref_code=c)`. -/
def findByRefCode (db : DB) (c : String) : Option UserRec :=
  List.find? (fun u => u.ref_code == some c) db

/-- `User.filter(ref_code=code).exists()`. -/
def refCodeExists (db : DB) (c : String) : Bool :=
  List.any db (fun u => u.ref_code == some c)

/-- The primary-key invariant of the `users` table: ids are distinct. -/
abbrev NodupIds (db : DB) : Prop := (List.map (fun u => u.id) db).Nodup

/-- `User.filter(id=i).update(...)` / `user.save(update_fields=...)`: apply
`f` to every row whose id matches (the primary key makes at most one). -/
def updateById (db : DB) (i : Int) (f : UserRec → UserRec) : DB :=
  db.map (fun u => if u.id == i then f u else u)

/-! ## Referral code allocation -/

/-- `create_unique_ref_code()`: try up to 10 generated codes against the
uniqueness of `ref_code`; `gen i` is the code produced by the `i`-th call of
`generate_ref_code()` (modelling `random.choice`).  The `RuntimeError` on
exhaustion surfaces as an uncaught 500. -/
def refCodeErr : HErr := ⟨500, "Failed to generate unique ref_code"⟩

def create_unique_ref_code_from (gen : Nat → String) (db : DB) : Nat → Nat → Except HErr String
  | _, 0 => .error refCodeErr
  | i, tries + 1 =>
    let code := gen i
    if refCodeExists db code then create_unique_ref_code_from gen db (i + 1) tries
    else .ok code

def create_unique_ref_code (gen : Nat → String) (db : DB) : Except HErr String :=
  create_unique_ref_code_from gen db 0 10

/-! ## Login (`POST /auth`) -/

/-- `dto/user.py` `UserLoginIn`, fields in declaration order. -/
structure UserLoginIn where
  id : Int
  auth_date : Int
  hash : String
  first_name : Option String := none
  last_name : Option String := none
  username : Option String := none
  photo_url : Option String := none
  invite_ref_code : Option String := none
deriving Repr, DecidableEq

def optPy : Option String → PyVal
  | some s => .vStr s
  | none => .vNone

/-- `data.model_dump()` of `UserLoginIn` (insertion order = field order). -/
def loginDump (d : UserLoginIn) : Dict :=
  [("id", .vInt d.id), ("auth_date", .vInt d.auth_date), ("hash", .vStr d.hash),
   ("first_name", optPy d.first_name), ("last_name", optPy d.last_name),
   ("username", optPy d.username), ("photo_url", optPy d.photo_url),
   ("invite_ref_code", optPy d.invite_ref_code)]

def DEV_MOCK_USER_ID : Int := 359107176

def DEV_MOCK_HASH : String := "mock"

/-- The mock-bypass guard of `login`: local dev environment, mock hash, mock id. -/
def mockBypass (cfg : Config) (d : UserLoginIn) : Bool :=
  cfg.isLocalDev && d.hash == DEV_MOCK_HASH && d.id == DEV_MOCK_USER_ID

/-- `set_refresh_cookie(response, user_id)`: the refresh token placed in the
`refresh_token` cookie. -/
def set_refresh_cookie (cfg : Config) (now : Int) (user_id : Int) : Tok :=
  create_refresh_token cfg now { sub := some (toString user_id) }

/-- A successful auth response: the returned access token plus the refresh
token set as the cookie. -/
structure TokenResp where
  access_token : Tok
  refresh_cookie : Tok
deriving Repr, DecidableEq

/-- The referrer resolution at the top of `login`: look up the invite code if
truthy, then drop a self-referral. -/
def resolveReferrer (db : DB) (selfId : Int) (invite_ref_code : Option String) : Option UserRec :=
  if strOptTruthy invite_ref_code then
    match findByRefCode db (invite_ref_code.getD "") with
    | some r => if r.id == selfId then none else some r
    | none => none
  else none

/-- The retroactive `referred_by` backfill of the existing-user branch.  The
guard mirrors `not user.referred_by and referrer and not user.license_end_date
and referrer.id != user.id`; `user.referred_by` (a nullable relation) and
`user.license_end_date` (a `datetime`) are truthy in Python exactly when
non-`None`, so both tests are `isNone` checks, not comparisons with the
clock. -/
def referralBackfill (db : DB) (user : UserRec) (referrer : Option UserRec) : DB :=
  match referrer with
  | some r =>
    if user.referred_by.isNone && user.license_end_date.isNone && r.id != user.id then
      updateById db user.id (fun w => { w with referred_by := some r.id })
    else db
  | none => db

/-- The tail of the existing-user branch of `login`: the `referred_by`
backfill, then token issuance. -/
def loginFinishExisting (cfg : Config) (now : Int) (db : DB) (user : UserRec)
    (referrer : Option UserRec) : DB × Except HErr TokenResp :=
  (referralBackfill db user referrer,
   .ok ⟨create_access_token cfg now { sub := some (toString user.id) },
        set_refresh_cookie cfg now user.id⟩)

/-- The field update of the profile resync. -/
def profileApply (data : UserLoginIn) (w : UserRec) : UserRec :=
  { w with username := data.username, first_name := data.first_name,
           last_name := data.last_name, photo_url := data.photo_url }

/-- `User.filter(id=i).update(username=..., first_name=..., last_name=...,
photo_url=...)`: the profile resync of the existing-user branch. -/
def profileSync (db : DB) (data : UserLoginIn) (i : Int) : DB :=
  updateById db i (profileApply data)

/-- The field update of `user.save(update_fields=["ref_code"])`. -/
def refCodeApply (code : String) (w : UserRec) : UserRec :=
  { w with ref_code := some code }

/-- The new-account branch of `login`: allocate a unique referral code, then
create the row with the (already self-filtered) referrer. -/
def login_new (cfg : Config) (now : Int) (gen : Nat → String) (db : DB) (data : UserLoginIn)
    (referrer : Option UserRec) : DB × Except HErr TokenResp :=
  match create_unique_ref_code gen db with
  | .error e => (db, .error e)
  | .ok code =>
    (db ++ [{ id := data.id, username := data.username, first_name := data.first_name,
              last_name := data.last_name, photo_url := data.photo_url,
              ref_code := some code,
              referred_by := referrer.map (fun r => r.id) }],
     .ok ⟨create_access_token cfg now { sub := some (toString data.id) },
          set_refresh_cookie cfg now data.id⟩)

/-- The existing-account branch of `login`: resync the profile, lazily
allocate a missing `ref_code` (note `not user.ref_code` is string
truthiness), then backfill and issue. -/
def login_existing (cfg : Config) (now : Int) (gen : Nat → String) (db : DB) (data : UserLoginIn)
    (user : UserRec) (referrer : Option UserRec) : DB × Except HErr TokenResp :=
  if strOptTruthy user.ref_code then
    loginFinishExisting cfg now (profileSync db data user.id) user referrer
  else
    match create_unique_ref_code gen (profileSync db data user.id) with
    | .error e => (profileSync db data user.id, .error e)
    | .ok code =>
      loginFinishExisting cfg now
        (updateById (profileSync db data user.id) user.id (refCodeApply code))
        { user with ref_code := some code } referrer

/-- The body of `login` after a successful signature verification: resolve
the referrer, then create or update the account. -/
def login_verified (cfg : Config) (now : Int) (gen : Nat → String) (db : DB)
    (data : UserLoginIn) : DB × Except HErr TokenResp :=
  match findById db data.id with
  | none => login_new cfg now gen db data (resolveReferrer db data.id data.invite_ref_code)
  | some user =>
    login_existing cfg now gen db data user (resolveReferrer db data.id data.invite_ref_code)

/-- `login` from `app/routers/auth.py` (`POST /auth`).  `gen` supplies the
stream of codes produced by successive `generate_ref_code()` calls
(modelling `random.choice`). -/
def login (cfg : Config) (now : Int) (gen : Nat → String) (db : DB) (data : UserLoginIn) :
    DB × Except HErr TokenResp :=
  if mockBypass cfg data then
    (db, .ok ⟨create_access_token cfg now { sub := some (toString DEV_MOCK_USER_ID) },
              set_refresh_cookie cfg now DEV_MOCK_USER_ID⟩)
  else
    match validate_telegram_data now cfg.botToken
        (dictErase "invite_ref_code" (loginDump data)) with
    | .error e => (db, .error e)
    | .ok _ => login_verified cfg now gen db data

/-- `api/dto/user.py` `UserLoginIn`: the unified-login variant has no
`invite_ref_code` field. -/
structure ApiLoginIn where
  id : Int
  auth_date : Int
  hash : String
  first_name : Option String := none
  last_name : Option String := none
  username : Option String := none
  photo_url : Option String := none
deriving Repr, DecidableEq

def apiLoginDump (d : ApiLoginIn) : Dict :=
  [("id", .vInt d.id), ("auth_date", .vInt d.auth_date), ("hash", .vStr d.hash),
   ("first_name", optPy d.first_name), ("last_name", optPy d.last_name),
   ("username", optPy d.username), ("photo_url", optPy d.photo_url)]

/-- The body of the unified-login `login` after verification. -/
def api_login_verified (cfg : Config) (now : Int) (db : DB) (data : ApiLoginIn) :
    DB × Except HErr TokenResp :=
  match findById db data.id with
  | none =>
    (db ++ [{ id := data.id, username := data.username, first_name := data.first_name,
              last_name := data.last_name, photo_url := data.photo_url }],
     .ok ⟨create_access_token cfg now { sub := some (toString data.id) },
          set_refresh_cookie cfg now data.id⟩)
  | some user =>
    (updateById db user.id (fun w =>
       { w with username := data.username, first_name := data.first_name,
                last_name := data.last_name, photo_url := data.photo_url }),
     .ok ⟨create_access_token cfg now { sub := some (toString user.id) },
          set_refresh_cookie cfg now user.id⟩)

/-- `login` from `app/api/routers/auth.py` (`POST /auth`): no mock bypass, no
referral handling, no lazy `ref_code` allocation. -/
def api_login (cfg : Config) (now : Int) (db : DB) (data : ApiLoginIn) :
    DB × Except HErr TokenResp :=
  match validate_telegram_data now cfg.botToken (apiLoginDump data) with
  | .error e => (db, .error e)
  | .ok _ => api_login_verified cfg now db data

/-! ## Refresh (`POST /auth/refresh`) and identity resolution -/

def noRefreshCookieErr : HErr := ⟨401, "No refresh token cookie found"⟩

def invalidRefreshErr : HErr := ⟨401, "Invalid refresh token"⟩

def userNotFoundErr : HErr := ⟨404, "User not found"⟩

/-- The delegated branch of refresh, after the acting-as subject has been
resolved: re-validate the real subject and reissue. -/
def refresh_delegated (cfg : Config) (now : Int) (db : DB) (payload : JwtClaims)
    (user : UserRec) : Except HErr TokenResp :=
  match pyIntOfStr (payload.real_sub.getD "") with
  | none => .error internalErr
  | some real_sub =>
    match findById db real_sub with
    | none => .error invalidRefreshErr
    | some admin =>
      if admin.role != Role.ADMIN then .error invalidRefreshErr
      else
        .ok ⟨(create_impersonation_tokens cfg now user.id admin.id).1,
             (create_impersonation_tokens cfg now user.id admin.id).2⟩

/-- Refresh once the acting-as subject's account is resolved: branch on the
delegation marker (`payload.get("impersonated") and payload.get("real_sub")`). -/
def refresh_sub_resolved (cfg : Config) (now : Int) (db : DB) (payload : JwtClaims)
    (user : UserRec) : Except HErr TokenResp :=
  if payload.impersonated && strOptTruthy payload.real_sub then
    refresh_delegated cfg now db payload user
  else
    .ok ⟨create_access_token cfg now { sub := some (toString user.id) },
         set_refresh_cookie cfg now user.id⟩

/-- Refresh with decoded claims: the falsy-subject and unknown-subject cases
both answer 401 "Invalid refresh token". -/
def refresh_with_payload (cfg : Config) (now : Int) (db : DB) (payload : JwtClaims) :
    Except HErr TokenResp :=
  if strOptTruthy payload.sub = false then .error invalidRefreshErr
  else
    match pyIntOfStr (payload.sub.getD "") with
    | none => .error internalErr
    | some uid =>
      match findById db uid with
      | none => .error invalidRefreshErr
      | some user => refresh_sub_resolved cfg now db payload user

/-- `refresh_token_endpoint` (textually identical in `app/routers/auth.py`
and `app/api/routers/auth.py`).  The database is never mutated. -/
def refresh_token_endpoint (cfg : Config) (now : Int) (db : DB) :
    Option Tok → Except HErr TokenResp
  | none => .error noRefreshCookieErr
  | some rt =>
    match decode_token now rt with
    | .error e => .error e
    | .ok payload => refresh_with_payload cfg now db payload

/-- `get_current_user`, after the `Bearer ` scheme extraction: decode the
access token and resolve the plain subject; an unknown account is a 404. -/
def get_current_user (now : Int) (db : DB) (token : Tok) : Except HErr UserRec :=
  match decode_token now token with
  | .error e => .error e
  | .ok payload =>
    if strOptTruthy payload.sub = false then .error tokenInvalidErr
    else
      match pyIntOfStr (payload.sub.getD "") with
      | none => .error internalErr
      | some uid =>
        match findById db uid with
        | none => .error userNotFoundErr
        | some user => .ok user

/-! ## Internal sync gateway (`app/routers/admin.py`) -/

def syncUnconfiguredErr : HErr := ⟨503, "User sync token is not configured"⟩

def invalidInternalTokenErr : HErr := ⟨401, "Invalid internal token"⟩

/-- `internal_sync_required(x_internal_token)`: 503 when
`config.internal.user_sync_token` is unconfigured, 401 when the header is
falsy or the constant-time comparison rejects it; the comparison itself
raises (500) on non-ASCII input. -/
def internal_sync_required : Option String → Option String → Except HErr Unit
  | none, _ => .error syncUnconfiguredErr
  | some expected, x_internal_token =>
    if strOptTruthy x_internal_token = false then .error invalidInternalTokenErr
    else
      match compare_digest (x_internal_token.getD "") expected with
      | some true => .ok ()
      | some false => .error invalidInternalTokenErr
      | none => .error internalErr

/-- `CreateUserIn` from `app/routers/admin.py`: every field but `id`
optional and `None` by default. -/
structure CreateUserIn where
  id : Int
  username : Option String := none
  first_name : Option String := none
  last_name : Option String := none
  photo_url : Option String := none
  role : Option Role := none
  license_end_date : Option Int := none
  balance : Option Int := none
  ref_code : Option String := none
  or_api_key : Option String := none
  or_api_hash : Option String := none
  or_model : Option String := none
deriving Repr, DecidableEq

/-- Take the new value when supplied, keep the current one otherwise. -/
def overrideOpt {α : Type} (new cur : Option α) : Option α :=
  match new with
  | some v => some v
  | none => cur

/-- Apply `data.model_dump(exclude={"id"}, exclude_none=True)` as update
fields: only non-`None` request fields are written. -/
def applyDefaults (u : UserRec) (d : CreateUserIn) : UserRec :=
  { u with
    username := overrideOpt d.username u.username,
    first_name := overrideOpt d.first_name u.first_name,
    last_name := overrideOpt d.last_name u.last_name,
    photo_url := overrideOpt d.photo_url u.photo_url,
    role := d.role.getD u.role,
    license_end_date := overrideOpt d.license_end_date u.license_end_date,
    balance := d.balance.getD u.balance,
    ref_code := overrideOpt d.ref_code u.ref_code,
    or_api_key := overrideOpt d.or_api_key u.or_api_key,
    or_api_hash := overrideOpt d.or_api_hash u.or_api_hash,
    or_model := overrideOpt d.or_model u.or_model }

inductive CreateStatus where
  | created
  | updated
deriving Repr, DecidableEq

structure CreateUserOut where
  status : CreateStatus
  user_id : Int
deriving Repr, DecidableEq

/-- `create_user` (`POST /admin/create-user`): `update_or_create` with the
non-`None` fields as defaults — update them on an existing row, or create a
row from the ORM defaults overridden by them. -/
def create_user (db : DB) (data : CreateUserIn) : DB × CreateUserOut :=
  match findById db data.id with
  | some _ => (updateById db data.id (fun u => applyDefaults u data), ⟨.updated, data.id⟩)
  | none => (db ++ [applyDefaults { id := data.id } data], ⟨.created, data.id⟩)

inductive DebitStatus where
  | ok
  | insufficient_funds
  | not_found
deriving Repr, DecidableEq

structure InternalDebitBalanceOut where
  status : DebitStatus
  balance_kopecks : Option Int
deriving Repr, DecidableEq

def amountErr : HErr := ⟨400, "amount_kopecks must be positive"⟩

/-- `internal_debit_balance` (`POST /admin/internal/debit-balance`): reject a
non-positive amount, then an atomic conditional decrement
(`filter(id=..., balance__gte=amount).update(balance=F("balance") - amount)`),
reporting `insufficient_funds` with the fresh balance when no row matched. -/
def internal_debit_balance (db : DB) (user_id amount_kopecks : Int) :
    DB × Except HErr InternalDebitBalanceOut :=
  if amount_kopecks ≤ 0 then (db, .error amountErr)
  else
    match findById db user_id with
    | none => (db, .ok ⟨.not_found, none⟩)
    | some _ =>
      let updated := (db.filter (fun u => u.id == user_id && amount_kopecks ≤ u.balance)).length
      let db1 := db.map (fun u =>
        if u.id == user_id && amount_kopecks ≤ u.balance
        then { u with balance := u.balance - amount_kopecks } else u)
      if updated == 0 then
        match findById db1 user_id with
        | some fresh => (db1, .ok ⟨.insufficient_funds, some fresh.balance⟩)
        | none => (db1, .error internalErr)
      else
        match findById db1 user_id with
        | some fresh => (db1, .ok ⟨.ok, some fresh.balance⟩)
        | none => (db1, .error internalErr)

/-! ## Helper lemmas: digest shape

The only facts ever needed about the concrete SHA-256 are its output length
and that its hex rendering is ASCII; collision facts are never assumed. -/

theorem bytesBE_length (n v : Nat) : (bytesBE n v).length = n := by
  induction n generalizing v with
  | zero => rfl
  | succ k ih => simp [bytesBE, ih]

theorem h8Bytes_length (s : H8) : (h8Bytes s).length = 32 := by
  simp [h8Bytes, bytesBE_length]

theorem sha256_length (ms : List Nat) : (sha256 ms).length = 32 := by
  simp [sha256, h8Bytes_length]

theorem hmacSha256_length (key msg : List Nat) : (hmacSha256 key msg).length = 32 := by
  simp [hmacSha256, sha256_length]

theorem string_mk_length (cs : List Char) : (String.mk cs).length = cs.length := rfl

theorem hexChars_length (bs : List Nat) :
    (bs.foldr (fun b acc => byteHex b ++ acc) []).length = 2 * bs.length := by
  induction bs with
  | nil => rfl
  | cons b rest ih =>
    rw [List.foldr_cons, List.length_append, ih]
    simp [byteHex]
    omega

theorem bytesToHex_length (bs : List Nat) : (bytesToHex bs).length = 2 * bs.length := by
  unfold bytesToHex
  rw [string_mk_length, hexChars_length]

theorem telegramHash_length (tok m : String) : (telegramHash tok m).length = 64 := by
  simp [telegramHash, bytesToHex_length, hmacSha256_length]

theorem telegramHash_ne_empty (tok m : String) : telegramHash tok m ≠ "" := by
  intro h
  have := telegramHash_length tok m
  rw [h] at this
  simp at this

theorem bytesBE_mem_lt (n v : Nat) : ∀ b ∈ bytesBE n v, b < 256 := by
  induction n generalizing v with
  | zero => intro b hb; simp [bytesBE] at hb
  | succ k ih =>
    intro b hb
    simp only [bytesBE, List.mem_append, List.mem_singleton] at hb
    rcases hb with hb | hb
    · exact ih _ b hb
    · subst hb
      have : v &&& 255 ≤ 255 := Nat.and_le_right
      omega

theorem h8Bytes_mem_lt (s : H8) : ∀ b ∈ h8Bytes s, b < 256 := by
  intro b hb
  simp only [h8Bytes, List.mem_append] at hb
  rcases hb with ((((((hb | hb) | hb) | hb) | hb) | hb) | hb) | hb <;>
    exact bytesBE_mem_lt _ _ b hb

theorem sha256_mem_lt (ms : List Nat) : ∀ b ∈ sha256 ms, b < 256 := by
  intro b hb
  exact h8Bytes_mem_lt _ b hb

theorem hmacSha256_mem_lt (key msg : List Nat) : ∀ b ∈ hmacSha256 key msg, b < 256 := by
  intro b hb
  exact sha256_mem_lt _ b hb

theorem hexDigitChar_ascii : ∀ n, n < 16 → (hexDigitChar n).toNat < 128 := by decide

theorem bytesToHex_ascii (bs : List Nat) (h : ∀ b ∈ bs, b < 256) :
    isAsciiStr (bytesToHex bs) = true := by
  unfold bytesToHex isAsciiStr
  induction bs with
  | nil => rfl
  | cons b rest ih =>
    have hb : b < 256 := h b (List.mem_cons_self b rest)
    have hrest := ih (fun x hx => h x (List.mem_cons_of_mem b hx))
    simp only [List.foldr_cons, byteHex, List.cons_append, List.nil_append, List.all_cons,
      Bool.and_eq_true, decide_eq_true_eq] at hrest ⊢
    refine ⟨hexDigitChar_ascii _ (by omega), hexDigitChar_ascii _ (by omega), hrest⟩

theorem telegramHash_ascii (tok m : String) : isAsciiStr (telegramHash tok m) = true :=
  bytesToHex_ascii _ (hmacSha256_mem_lt _ _)

/-! ## Helper lemmas: the database -/

theorem findById_some (db : DB) (i : Int) (u : UserRec) (h : findById db i = some u) :
    u ∈ db ∧ u.id = i := by
  refine ⟨List.mem_of_find?_eq_some h, ?_⟩
  have := List.find?_some h
  simpa using this

theorem findById_none (db : DB) (i : Int) (h : findById db i = none) :
    ∀ v ∈ db, v.id ≠ i := by
  intro v hv
  have := List.find?_eq_none.mp h v hv
  simpa using this

theorem nodupIds_id_inj (db : DB) (hnd : NodupIds db) (u v : UserRec)
    (hu : u ∈ db) (hv : v ∈ db) (h : u.id = v.id) : u = v := by
  induction db with
  | nil => cases hu
  | cons w rest ih =>
    have hnd' : NodupIds rest := by
      have := hnd
      simp only [NodupIds, List.map_cons, List.nodup_cons] at this
      exact this.2
    have hw : w.id ∉ rest.map (fun u => u.id) := by
      have := hnd
      simp only [NodupIds, List.map_cons, List.nodup_cons] at this
      exact this.1
    rcases List.mem_cons.mp hu with rfl | hu' <;> rcases List.mem_cons.mp hv with rfl | hv'
    · rfl
    · exact absurd (h ▸ List.mem_map_of_mem (fun u => u.id) hv') hw
    · exact absurd (h ▸ List.mem_map_of_mem (fun u => u.id) hu') hw
    · exact ih hnd' hu' hv'

theorem findById_of_nodup_mem (db : DB) (hnd : NodupIds db) (u : UserRec)
    (hu : u ∈ db) : findById db u.id = some u := by
  rcases h : findById db u.id with _ | v
  · exact absurd rfl (findById_none db u.id h u hu)
  · obtain ⟨hvmem, hvid⟩ := findById_some db u.id v h
    rw [nodupIds_id_inj db hnd u v hu hvmem hvid.symm]

theorem mem_updateById (db : DB) (i : Int) (f : UserRec → UserRec) (u' : UserRec)
    (h : u' ∈ updateById db i f) : ∃ w ∈ db, u' = if w.id == i then f w else w := by
  unfold updateById at h
  obtain ⟨w, hw, hwe⟩ := List.mem_map.mp h
  exact ⟨w, hw, hwe.symm⟩

theorem updateById_mem (db : DB) (i : Int) (f : UserRec → UserRec) (w : UserRec)
    (h : w ∈ db) : (if w.id == i then f w else w) ∈ updateById db i f :=
  List.mem_map_of_mem _ h

theorem findById_cons (x : UserRec) (l : DB) (j : Int) :
    findById (x :: l) j = if x.id == j then some x else findById l j := by
  cases h : x.id == j <;> simp [findById, List.find?, h]

theorem findById_updateById (db : DB) (i j : Int) (f : UserRec → UserRec)
    (hf : ∀ w, (f w).id = w.id) :
    findById (updateById db i f) j = (findById db j).map (fun w => if w.id == i then f w else w) := by
  induction db with
  | nil => rfl
  | cons w rest ih =>
    have hcons : updateById (w :: rest) i f = (if w.id == i then f w else w) :: updateById rest i f := rfl
    rw [hcons, findById_cons, findById_cons]
    have hid : (if w.id == i then f w else w).id = w.id := by
      by_cases hii : w.id = i <;> simp [hii, hf]
    cases hji : w.id == j with
    | true =>
      have hb : ((if w.id == i then f w else w).id == j) = true := by rw [hid]; exact hji
      rw [hb]
      simp
    | false =>
      have hb : ((if w.id == i then f w else w).id == j) = false := by rw [hid]; exact hji
      rw [hb]
      simp [ih]

theorem nodupIds_updateById (db : DB) (i : Int) (f : UserRec → UserRec)
    (hf : ∀ w, (f w).id = w.id) (hnd : NodupIds db) : NodupIds (updateById db i f) := by
  have : (updateById db i f).map (fun u => u.id) = db.map (fun u => u.id) := by
    simp only [updateById, List.map_map]
    apply List.map_congr_left
    intro w _
    by_cases h : w.id = i <;> simp [h, hf]
  unfold NodupIds
  rw [this]
  exact hnd

/-! ## Helper lemmas: the signature verifier -/


theorem validate_noHash (now : Int) (tok : String) (d : Dict)
    (h : optTruthy (dictGet "hash" d) = false) :
    validate_telegram_data now tok d = .error noHashErr := by
  unfold validate_telegram_data
  rw [if_pos h]

theorem validate_expired_absent (now : Int) (tok : String) (d : Dict)
    (hh : optTruthy (dictGet "hash" d) = true)
    (ha : optIsNone (dictGet "auth_date" (dictErase "hash" d)) = true) :
    validate_telegram_data now tok d = .error expiredErr := by
  unfold validate_telegram_data
  rw [if_neg (by simp [hh]), if_pos ha]

theorem toInt_optIsNone_false (o : Option PyVal) (v : PyVal) (a : Int)
    (ho : o = some v) (hi : v.toInt = some a) : optIsNone o = false := by
  subst ho
  cases v <;> simp_all [PyVal.toInt, optIsNone]

theorem authDateInt_eq (d : Dict) (v : PyVal) (a : Int)
    (ha : dictGet "auth_date" d = some v) (hi : v.toInt = some a) :
    authDateInt d = some a := by
  unfold authDateInt
  rw [ha]
  exact hi

/-- The verifier once the hash is truthy and the auth timestamp converts:
the staleness test guarding the signature comparison. -/
theorem validate_eq_tail (now : Int) (tok : String) (d : Dict) (a : Int)
    (hth : optTruthy (dictGet "hash" d) = true)
    (hnn : optIsNone (dictGet "auth_date" (dictErase "hash" d)) = false)
    (haux : authDateInt (dictErase "hash" d) = some a) :
    validate_telegram_data now tok d =
      (if 86400 < now - a then .error expiredErr
       else hashCheck (telegramHash tok (dataCheckString (dictErase "hash" d)))
              (dictGet "hash" d)) := by
  unfold validate_telegram_data
  rw [if_neg (by simp [hth]), if_neg (by simp [hnn]), haux]

theorem validate_expired_stale (now : Int) (tok : String) (d : Dict) (v : PyVal) (a : Int)
    (hh : optTruthy (dictGet "hash" d) = true)
    (ha : dictGet "auth_date" (dictErase "hash" d) = some v)
    (hi : v.toInt = some a)
    (hs : 86400 < now - a) :
    validate_telegram_data now tok d = .error expiredErr := by
  rw [validate_eq_tail now tok d a hh (toInt_optIsNone_false _ v a ha hi)
    (authDateInt_eq _ v a ha hi)]
  rw [if_pos hs]


theorem sigCheck_ok (g r : String) (h : compare_digest g r = some true) :
    sigCheck g r = .ok () := by
  unfold sigCheck
  rw [h]

theorem sigCheck_mismatch (g r : String) (h : compare_digest g r = some false) :
    sigCheck g r = .error mismatchErr := by
  unfold sigCheck
  rw [h]

theorem sigCheck_ok_elim (g r : String) (h : sigCheck g r = .ok ()) : g = r := by
  unfold sigCheck at h
  rcases hcd : compare_digest g r with _ | b
  · rw [hcd] at h
    cases h
  · rw [hcd] at h
    cases b with
    | false => cases h
    | true =>
      unfold compare_digest at hcd
      by_cases hca : (isAsciiStr g && isAsciiStr r) = true
      · rw [if_pos hca] at hcd
        exact beq_iff_eq.mp (Option.some.inj hcd)
      · rw [if_neg hca] at hcd
        cases hcd

theorem hashCheck_ok_elim (g : String) (o : Option PyVal) (h : hashCheck g o = .ok ()) :
    ∃ r, o = some (.vStr r) ∧ g = r := by
  match o with
  | none => cases h
  | some (.vInt n) => cases h
  | some .vNone => cases h
  | some (.vStr r) => exact ⟨r, rfl, sigCheck_ok_elim g r h⟩

theorem validate_ok_of (now : Int) (tok : String) (d : Dict) (r : String) (v : PyVal) (a : Int)
    (hh : dictGet "hash" d = some (.vStr r))
    (ha : dictGet "auth_date" (dictErase "hash" d) = some v)
    (hi : v.toInt = some a)
    (hfresh : now - a ≤ 86400)
    (hr : r = telegramHash tok (dataCheckString (dictErase "hash" d))) :
    validate_telegram_data now tok d = .ok () := by
  have hne : r ≠ "" := hr ▸ telegramHash_ne_empty _ _
  have hth : optTruthy (dictGet "hash" d) = true := by
    rw [hh]
    simpa [optTruthy, PyVal.truthy] using hne
  have hasc : isAsciiStr r = true := hr ▸ telegramHash_ascii _ _
  have hcd : compare_digest (telegramHash tok (dataCheckString (dictErase "hash" d))) r
      = some true := by
    unfold compare_digest
    rw [if_pos (by rw [telegramHash_ascii, hasc]; rfl)]
    rw [hr, beq_self_eq_true]
  rw [validate_eq_tail now tok d a hth (toInt_optIsNone_false _ v a ha hi)
    (authDateInt_eq _ v a ha hi)]
  rw [if_neg (by omega), hh]
  exact sigCheck_ok _ _ hcd

theorem validate_mismatch_of (now : Int) (tok : String) (d : Dict) (r : String) (v : PyVal) (a : Int)
    (hh : dictGet "hash" d = some (.vStr r))
    (hne : r ≠ "")
    (hasc : isAsciiStr r = true)
    (ha : dictGet "auth_date" (dictErase "hash" d) = some v)
    (hi : v.toInt = some a)
    (hfresh : now - a ≤ 86400)
    (hr : r ≠ telegramHash tok (dataCheckString (dictErase "hash" d))) :
    validate_telegram_data now tok d = .error mismatchErr := by
  have hth : optTruthy (dictGet "hash" d) = true := by
    rw [hh]
    simpa [optTruthy, PyVal.truthy] using hne
  have hbne : (telegramHash tok (dataCheckString (dictErase "hash" d)) == r) = false := by
    rw [beq_eq_false_iff_ne]
    exact fun he => hr he.symm
  have hcd : compare_digest (telegramHash tok (dataCheckString (dictErase "hash" d))) r
      = some false := by
    unfold compare_digest
    rw [if_pos (by rw [telegramHash_ascii, hasc]; rfl)]
    rw [hbne]
  rw [validate_eq_tail now tok d a hth (toInt_optIsNone_false _ v a ha hi)
    (authDateInt_eq _ v a ha hi)]
  rw [if_neg (by omega), hh]
  exact sigCheck_mismatch _ _ hcd

theorem validate_ok_elim (now : Int) (tok : String) (d : Dict)
    (h : validate_telegram_data now tok d = .ok ()) :
    ∃ r v a, dictGet "hash" d = some (.vStr r) ∧ r ≠ "" ∧
      dictGet "auth_date" (dictErase "hash" d) = some v ∧ v.toInt = some a ∧
      now - a ≤ 86400 ∧ r = telegramHash tok (dataCheckString (dictErase "hash" d)) := by
  unfold validate_telegram_data at h
  by_cases h1 : optTruthy (dictGet "hash" d) = false
  · rw [if_pos h1] at h
    cases h
  · rw [if_neg h1] at h
    by_cases h2 : optIsNone (dictGet "auth_date" (dictErase "hash" d)) = true
    · rw [if_pos h2] at h
      cases h
    · rw [if_neg h2] at h
      rcases haux : authDateInt (dictErase "hash" d) with _ | a
      · rw [haux] at h
        cases h
      · rw [haux] at h
        have h3 : (if 86400 < now - a then (Except.error expiredErr : Except HErr Unit)
            else hashCheck (telegramHash tok (dataCheckString (dictErase "hash" d)))
              (dictGet "hash" d)) = .ok () := h
        by_cases hst : 86400 < now - a
        · rw [if_pos hst] at h3
          cases h3
        · rw [if_neg hst] at h3
          obtain ⟨v, hget, hint⟩ :
              ∃ v, dictGet "auth_date" (dictErase "hash" d) = some v ∧ v.toInt = some a := by
            unfold authDateInt at haux
            rcases hg : dictGet "auth_date" (dictErase "hash" d) with _ | v
            · rw [hg] at haux
              cases haux
            · rw [hg] at haux
              exact ⟨v, rfl, haux⟩
          obtain ⟨r, hro, hgr⟩ := hashCheck_ok_elim _ _ h3
          refine ⟨r, v, a, hro, ?_, hget, hint, by omega, hgr.symm⟩
          rw [hro] at h1
          simpa [optTruthy, PyVal.truthy] using h1

/-! ## Claim C9: the internal sync gate -/

/-- C9 (amended).  The internal-sync gate fails 503 when the shared secret is
unconfigured.  When the secret is configured: a missing or empty header token
is a 401; for a present non-empty token, if the token or the secret contains
a non-ASCII character `hmac.compare_digest` raises and the call is a 500,
and otherwise the call is a 401 exactly when the token differs from the
secret; the gate passes only when the supplied token equals the configured
secret; the 503, 401 and 500 failure classes are pairwise distinct. -/
theorem c9_internal_sync_gate :
    (∀ hdr, internal_sync_required none hdr = .error syncUnconfiguredErr) ∧
    (∀ s, internal_sync_required (some s) none = .error invalidInternalTokenErr) ∧
    (∀ s, internal_sync_required (some s) (some "") = .error invalidInternalTokenErr) ∧
    (∀ s t, t ≠ "" →
      internal_sync_required (some s) (some t) =
        (if (isAsciiStr t && isAsciiStr s) = true
         then (if t = s then .ok () else .error invalidInternalTokenErr)
         else .error internalErr)) ∧
    (∀ cfgTok hdr, internal_sync_required cfgTok hdr = .ok () →
      ∃ s, cfgTok = some s ∧ hdr = some s) ∧
    syncUnconfiguredErr.status = 503 ∧ invalidInternalTokenErr.status = 401 ∧
    internalErr.status = 500 ∧
    syncUnconfiguredErr ≠ invalidInternalTokenErr ∧
    syncUnconfiguredErr ≠ internalErr ∧ invalidInternalTokenErr ≠ internalErr := by
  refine ⟨fun hdr => rfl, fun s => rfl, fun s => rfl, ?_, ?_, rfl, rfl, rfl,
    by decide, by decide, by decide⟩
  · intro s t hne
    show (if strOptTruthy (some t) = false then (Except.error invalidInternalTokenErr)
      else match compare_digest ((some t).getD "") s with
      | some true => Except.ok ()
      | some false => Except.error invalidInternalTokenErr
      | none => Except.error internalErr) = _
    rw [if_neg (by simpa [strOptTruthy] using hne)]
    by_cases hca : (isAsciiStr t && isAsciiStr s) = true
    · by_cases hts : t = s
      · have hcd : compare_digest ((some t).getD "") s = some true := by
          unfold compare_digest
          rw [Option.getD_some, if_pos hca, beq_iff_eq.mpr hts]
        rw [hcd, if_pos hca, if_pos hts]
      · have hcd : compare_digest ((some t).getD "") s = some false := by
          unfold compare_digest
          rw [Option.getD_some, if_pos hca]
          simpa using hts
        rw [hcd, if_pos hca, if_neg hts]
    · have hcd : compare_digest ((some t).getD "") s = none := by
        unfold compare_digest
        rw [Option.getD_some, if_neg hca]
      rw [hcd, if_neg hca]
  · intro cfgTok hdr h
    match cfgTok with
    | none => cases h
    | some s =>
      have h2 : (if strOptTruthy hdr = false then (Except.error invalidInternalTokenErr)
        else match compare_digest (hdr.getD "") s with
        | some true => Except.ok ()
        | some false => Except.error invalidInternalTokenErr
        | none => Except.error internalErr) = Except.ok () := h
      by_cases htr : strOptTruthy hdr = false
      · rw [if_pos htr] at h2
        cases h2
      · rw [if_neg htr] at h2
        rcases hcd : compare_digest (hdr.getD "") s with _ | b
        · rw [hcd] at h2
          cases h2
        · rw [hcd] at h2
          cases b with
          | false => cases h2
          | true =>
            unfold compare_digest at hcd
            by_cases hca : (isAsciiStr (hdr.getD "") && isAsciiStr s) = true
            · rw [if_pos hca] at hcd
              have heq := beq_iff_eq.mp (Option.some.inj hcd)
              match hdr, htr with
              | some t, _ =>
                rw [Option.getD_some] at heq
                exact ⟨s, rfl, by rw [heq]⟩
            · rw [if_neg hca] at hcd
              cases hcd

/-- C9 witness: against a configured ASCII secret, a differing ASCII token is
a 401, while a non-ASCII token makes the comparison raise, a 500. -/
theorem c9_witness :
    internal_sync_required (some "server-secret") (some "wrong-token")
      = .error invalidInternalTokenErr ∧
    internal_sync_required (some "server-secret") (some "токен")
      = .error internalErr :=
  ⟨(c9_internal_sync_gate.2.2.2.1 "server-secret" "wrong-token" (by decide)).trans rfl,
   (c9_internal_sync_gate.2.2.2.1 "server-secret" "токен" (by decide)).trans rfl⟩

/-- C9 counterexample to the claim as stated: with a configured secret and a
present, differing, non-ASCII token, `hmac.compare_digest` raises a
`TypeError`, so the call fails with a 500 internal error, not the 401 class
the claim asserts for every differing token. -/
theorem c9_counterexample :
    internal_sync_required (some "server-secret") (some "café") = .error internalErr ∧
    internalErr.status = 500 ∧ internalErr ≠ invalidInternalTokenErr :=
  ⟨rfl, rfl, by decide⟩

/-! ## Claim C4: the conditional balance debit -/

theorem findById_map (db : DB) (j : Int) (g : UserRec → UserRec)
    (hg : ∀ w, (g w).id = w.id) :
    findById (db.map g) j = (findById db j).map g := by
  induction db with
  | nil => rfl
  | cons w rest ih =>
    rw [List.map_cons, findById_cons, findById_cons]
    cases hji : w.id == j with
    | true =>
      have hb : ((g w).id == j) = true := by rw [hg]; exact hji
      rw [hb]
      simp
    | false =>
      have hb : ((g w).id == j) = false := by rw [hg]; exact hji
      rw [hb]
      simp [ih]

/-- A conditional row update whose condition holds nowhere is the identity. -/
theorem map_if_false (l : DB) (p : UserRec → Bool) (f : UserRec → UserRec)
    (h : ∀ w ∈ l, p w = false) :
    l.map (fun w => if p w then f w else w) = l := by
  induction l with
  | nil => rfl
  | cons w rest ih =>
    simp only [List.map_cons, h w (List.mem_cons_self w rest), Bool.false_eq_true, if_false]
    rw [ih fun x hx => h x (List.mem_cons_of_mem w hx)]

/-- C4.  The internal debit endpoint: a non-positive amount is a 400 with no
state change; an unknown account reports `not_found` with no state change; an
insufficient balance reports `insufficient_funds` with the current balance
and no state change; otherwise exactly the matching row's balance is
decremented by the amount, and the new balance is non-negative. -/
theorem c4_internal_debit_balance (db : DB) (uid amt : Int) (hnd : NodupIds db) :
    (amt ≤ 0 → internal_debit_balance db uid amt = (db, .error amountErr)) ∧
    (0 < amt → findById db uid = none →
      internal_debit_balance db uid amt = (db, .ok ⟨.not_found, none⟩)) ∧
    (∀ u, 0 < amt → findById db uid = some u → u.balance < amt →
      internal_debit_balance db uid amt = (db, .ok ⟨.insufficient_funds, some u.balance⟩)) ∧
    (∀ u, 0 < amt → findById db uid = some u → amt ≤ u.balance →
      internal_debit_balance db uid amt =
        (updateById db uid (fun w =>
          if amt ≤ w.balance then { w with balance := w.balance - amt } else w),
         .ok ⟨.ok, some (u.balance - amt)⟩) ∧
      0 ≤ u.balance - amt) := by
  refine ⟨fun hle => by unfold internal_debit_balance; rw [if_pos hle], ?_, ?_, ?_⟩
  · intro hpos hnone
    unfold internal_debit_balance
    rw [if_neg (by omega), hnone]
  · intro u hpos hfind hlt
    have hmem : u ∈ db := (findById_some db uid u hfind).1
    have huid : u.id = uid := (findById_some db uid u hfind).2
    have hcond : ∀ w ∈ db, (w.id == uid && decide (amt ≤ w.balance)) = false := by
      intro w hw
      by_cases hwid : w.id = uid
      · have hwu : w = u := nodupIds_id_inj db hnd w u hw hmem (by rw [hwid, huid])
        subst hwu
        have hdec : decide (amt ≤ w.balance) = false := decide_eq_false (by omega)
        simp [hdec]
      · simp [hwid]
    have hfilter : db.filter (fun w => w.id == uid && decide (amt ≤ w.balance)) = [] := by
      rw [List.filter_eq_nil_iff]
      intro w hw
      rw [hcond w hw]
      simp
    have hmapid : db.map (fun w => if w.id == uid && decide (amt ≤ w.balance)
        then { w with balance := w.balance - amt } else w) = db :=
      map_if_false db _ _ hcond
    unfold internal_debit_balance
    rw [if_neg (by omega), hfind, hfilter, hmapid]
    simp only [List.length_nil]
    rw [if_pos (beq_self_eq_true 0), hfind]
  · intro u hpos hfind hge
    have hmem : u ∈ db := (findById_some db uid u hfind).1
    have huid : u.id = uid := (findById_some db uid u hfind).2
    have hfne : (db.filter (fun w => w.id == uid && decide (amt ≤ w.balance))).length ≠ 0 := by
      have hin : u ∈ db.filter (fun w => w.id == uid && decide (amt ≤ w.balance)) :=
        List.mem_filter.mpr ⟨hmem, by simp [huid, hge]⟩
      intro hlen
      rw [List.length_eq_zero] at hlen
      rw [hlen] at hin
      cases hin
    have hmapdb : db.map (fun w => if w.id == uid && decide (amt ≤ w.balance)
        then { w with balance := w.balance - amt } else w)
        = updateById db uid (fun w =>
            if amt ≤ w.balance then { w with balance := w.balance - amt } else w) := by
      unfold updateById
      apply List.map_congr_left
      intro w _
      by_cases hwid : w.id = uid
      · by_cases hbal : amt ≤ w.balance <;> simp [hwid, hbal]
      · simp [hwid]
    have hfind1 : findById (db.map (fun w => if w.id == uid && decide (amt ≤ w.balance)
        then { w with balance := w.balance - amt } else w)) uid
        = some { u with balance := u.balance - amt } := by
      rw [findById_map db uid _ (fun w => by
        by_cases hc : (w.id == uid && decide (amt ≤ w.balance)) = true
        · rw [if_pos hc]
        · rw [if_neg hc]), hfind]
      simp [huid, hge]
    refine ⟨?_, by omega⟩
    unfold internal_debit_balance
    rw [if_neg (by omega), hfind]
    rw [if_neg (by
      intro hc
      simp only [beq_iff_eq] at hc
      exact hfne hc)]
    rw [hfind1, hmapdb]

/-- C4 witness: a concrete successful debit of 60 kopecks from a balance of
100 leaves 40 and a non-negative balance. -/
theorem c4_witness :
    internal_debit_balance [{ id := 7, balance := 100 }] 7 60
      = ([{ id := 7, balance := 40 }], .ok ⟨.ok, some 40⟩) ∧
    (0 : Int) ≤ 100 - 60 := by
  have h := (c4_internal_debit_balance [{ id := 7, balance := 100 }] 7 60
    (by decide)).2.2.2 { id := 7, balance := 100 } (by norm_num) (by rfl) (by norm_num)
  refine ⟨?_, h.2⟩
  rw [h.1]
  rfl

/-! ## Claim C8: partial upsert semantics of the internal create-user -/

/-- C8.  For an internal create-or-update call on an existing account, every
omitted-or-null request field leaves the stored field unchanged and every
non-null request field is written; rows with other ids are untouched. -/
theorem c8_create_user_partial (db : DB) (data : CreateUserIn) (u : UserRec)
    (hu : findById db data.id = some u) :
    ∃ u', (create_user db data).2 = ⟨.updated, data.id⟩ ∧
      findById (create_user db data).1 data.id = some u' ∧
      (∀ v ∈ db, v.id ≠ data.id → v ∈ (create_user db data).1) ∧
      u'.id = u.id ∧
      (data.username = none → u'.username = u.username) ∧
      (∀ x, data.username = some x → u'.username = some x) ∧
      (data.first_name = none → u'.first_name = u.first_name) ∧
      (∀ x, data.first_name = some x → u'.first_name = some x) ∧
      (data.last_name = none → u'.last_name = u.last_name) ∧
      (∀ x, data.last_name = some x → u'.last_name = some x) ∧
      (data.photo_url = none → u'.photo_url = u.photo_url) ∧
      (∀ x, data.photo_url = some x → u'.photo_url = some x) ∧
      (data.role = none → u'.role = u.role) ∧
      (∀ x, data.role = some x → u'.role = x) ∧
      (data.license_end_date = none → u'.license_end_date = u.license_end_date) ∧
      (∀ x, data.license_end_date = some x → u'.license_end_date = some x) ∧
      (data.balance = none → u'.balance = u.balance) ∧
      (∀ x, data.balance = some x → u'.balance = x) ∧
      (data.ref_code = none → u'.ref_code = u.ref_code) ∧
      (∀ x, data.ref_code = some x → u'.ref_code = some x) ∧
      (data.or_api_key = none → u'.or_api_key = u.or_api_key) ∧
      (∀ x, data.or_api_key = some x → u'.or_api_key = some x) ∧
      (data.or_api_hash = none → u'.or_api_hash = u.or_api_hash) ∧
      (∀ x, data.or_api_hash = some x → u'.or_api_hash = some x) ∧
      (data.or_model = none → u'.or_model = u.or_model) ∧
      (∀ x, data.or_model = some x → u'.or_model = some x) := by
  have huid : u.id = data.id := (findById_some db data.id u hu).2
  have h2 : (create_user db data).2 = ⟨.updated, data.id⟩ := by
    unfold create_user
    rw [hu]
  have h1 : (create_user db data).1 = updateById db data.id (fun w => applyDefaults w data) := by
    unfold create_user
    rw [hu]
  have hfind' : findById (create_user db data).1 data.id = some (applyDefaults u data) := by
    rw [h1, findById_updateById db data.id data.id (fun w => applyDefaults w data)
      (fun w => rfl), hu]
    simp [huid]
  have hmem' : ∀ v ∈ db, v.id ≠ data.id → v ∈ (create_user db data).1 := by
    intro v hv hne
    rw [h1]
    have hin := updateById_mem db data.id (fun w => applyDefaults w data) v hv
    rwa [if_neg (by simp [hne])] at hin
  refine ⟨applyDefaults u data, h2, hfind', hmem', rfl, ?_, ?_, ?_, ?_, ?_, ?_, ?_, ?_,
    ?_, ?_, ?_, ?_, ?_, ?_, ?_, ?_, ?_, ?_, ?_, ?_, ?_, ?_⟩ <;>
  first
    | (intro h; simp [applyDefaults, overrideOpt, h])
    | (intro x h; simp [applyDefaults, overrideOpt, h])

/-- C8 witness: updating an existing row with only a balance leaves the other
stored fields alone. -/
theorem c8_witness :
    create_user [{ id := 3, username := some "bob", balance := 5 }]
        { id := 3, balance := some 250 }
      = ([{ id := 3, username := some "bob", balance := 250 }], ⟨.updated, 3⟩) := by
  have h := c8_create_user_partial [{ id := 3, username := some "bob", balance := 5 }]
    { id := 3, balance := some 250 } { id := 3, username := some "bob", balance := 5 }
    (by rfl)
  rfl

/-! ## Claims C10 and C5: the refresh endpoint -/

theorem decode_tok_ok (now : Int) (c : JwtClaims) (hexp : ¬ c.exp < now) :
    decode_token now (.tok c) = .ok c := by
  show (if c.exp < now then (Except.error tokenExpiredErr : Except HErr JwtClaims)
    else .ok c) = .ok c
  rw [if_neg hexp]

theorem refresh_endpoint_payload (cfg : Config) (now : Int) (db : DB) (c : JwtClaims)
    (hexp : ¬ c.exp < now) :
    refresh_token_endpoint cfg now db (some (.tok c)) = refresh_with_payload cfg now db c := by
  show (match decode_token now (.tok c) with
        | .error e => (.error e : Except HErr TokenResp)
        | .ok payload => refresh_with_payload cfg now db payload)
      = refresh_with_payload cfg now db c
  rw [decode_tok_ok now c hexp]

theorem refresh_payload_user (cfg : Config) (now : Int) (db : DB) (payload : JwtClaims)
    (uid : Int) (hsubT : strOptTruthy payload.sub = true)
    (hpi : pyIntOfStr (payload.sub.getD "") = some uid) :
    refresh_with_payload cfg now db payload =
      (match findById db uid with
       | none => .error invalidRefreshErr
       | some user => refresh_sub_resolved cfg now db payload user) := by
  unfold refresh_with_payload
  rw [if_neg (by simp [hsubT]), hpi]

theorem refresh_sub_resolved_delegated (cfg : Config) (now : Int) (db : DB)
    (payload : JwtClaims) (user : UserRec)
    (h : (payload.impersonated && strOptTruthy payload.real_sub) = true) :
    refresh_sub_resolved cfg now db payload user = refresh_delegated cfg now db payload user := by
  unfold refresh_sub_resolved
  rw [if_pos h]

theorem refresh_delegated_eq (cfg : Config) (now : Int) (db : DB) (payload : JwtClaims)
    (user : UserRec) (radm : Int)
    (hpi2 : pyIntOfStr (payload.real_sub.getD "") = some radm) :
    refresh_delegated cfg now db payload user =
      (match findById db radm with
       | none => .error invalidRefreshErr
       | some admin =>
         if admin.role != Role.ADMIN then .error invalidRefreshErr
         else .ok ⟨(create_impersonation_tokens cfg now user.id admin.id).1,
                   (create_impersonation_tokens cfg now user.id admin.id).2⟩) := by
  unfold refresh_delegated
  rw [hpi2]

theorem get_current_user_find (now : Int) (db : DB) (c : JwtClaims) (uid : Int)
    (hexp : ¬ c.exp < now) (hsubT : strOptTruthy c.sub = true)
    (hpi : pyIntOfStr (c.sub.getD "") = some uid) :
    get_current_user now db (.tok c) =
      (match findById db uid with
       | none => .error userNotFoundErr
       | some user => .ok user) := by
  show (match decode_token now (.tok c) with
        | .error e => (.error e : Except HErr UserRec)
        | .ok payload =>
          if strOptTruthy payload.sub = false then .error tokenInvalidErr
          else
            match pyIntOfStr (payload.sub.getD "") with
            | none => .error internalErr
            | some uid =>
              match findById db uid with
              | none => .error userNotFoundErr
              | some user => .ok user) = _
  rw [decode_tok_ok now c hexp]
  show (if strOptTruthy c.sub = false then (Except.error tokenInvalidErr : Except HErr UserRec)
    else match pyIntOfStr (c.sub.getD "") with
    | none => .error internalErr
    | some uid =>
      match findById db uid with
      | none => .error userNotFoundErr
      | some user => .ok user) = _
  rw [if_neg (by simp [hsubT]), hpi]

/-- C10.  A refresh call with a decodable, unexpired, non-delegated refresh
token whose subject id matches no account fails with the 401
"Invalid refresh token" error — in contrast to bearer-token identity
resolution, which answers 404 "User not found" for the same unknown
subject — and issues nothing. -/
theorem c10_refresh_unknown_subject (cfg : Config) (now : Int) (db : DB) (c : JwtClaims)
    (s : String) (uid : Int)
    (hexp : ¬ c.exp < now) (himp : c.impersonated = false)
    (hsub : c.sub = some s) (hse : s ≠ "") (hsi : pyIntOfStr s = some uid)
    (hmiss : findById db uid = none) :
    refresh_token_endpoint cfg now db (some (.tok c)) = .error invalidRefreshErr ∧
    invalidRefreshErr = ⟨401, "Invalid refresh token"⟩ ∧
    invalidRefreshErr.status ≠ 404 ∧
    get_current_user now db (.tok c) = .error userNotFoundErr ∧
    userNotFoundErr = ⟨404, "User not found"⟩ := by
  have hsubT : strOptTruthy c.sub = true := by
    rw [hsub]
    simpa [strOptTruthy] using hse
  have hpi : pyIntOfStr (c.sub.getD "") = some uid := by
    rw [hsub, Option.getD_some]
    exact hsi
  refine ⟨?_, rfl, by decide, ?_, rfl⟩
  · rw [refresh_endpoint_payload cfg now db c hexp,
      refresh_payload_user cfg now db c uid hsubT hpi, hmiss]
  · rw [get_current_user_find now db c uid hexp hsubT hpi, hmiss]

/-- C10 witness: a concrete unexpired plain refresh token for subject 9
against an empty account table. -/
theorem c10_witness :
    refresh_token_endpoint ⟨false, "bot-token", 60, 30⟩ 50 []
        (some (.tok { sub := some "9", exp := 100 })) = .error invalidRefreshErr ∧
    get_current_user 50 [] (.tok { sub := some "9", exp := 100 })
      = .error userNotFoundErr := by
  have h := c10_refresh_unknown_subject ⟨false, "bot-token", 60, 30⟩ 50 []
    { sub := some "9", exp := 100 } "9" 9 (by norm_num) rfl rfl (by decide) (by decide) rfl
  exact ⟨h.1, h.2.2.2.1⟩

set_option maxRecDepth 4096

/-- C5 (amended).  For a refresh call with a decodable, unexpired refresh
token carrying the delegation marker (and the numeric subjects every token
minted by this service carries): if the real subject's account is missing or
lacks the administrator role the call fails with 401 Unauthenticated; if the
acting-as subject's account is missing the call also fails with 401 (the
amendment); otherwise a fresh impersonation pair for (acting-as, real) is
issued and the refresh cookie is rotated to the new refresh token. -/
theorem c5_refresh_delegated (cfg : Config) (now : Int) (db : DB) (c : JwtClaims)
    (su rs : String) (uid radm : Int)
    (hexp : ¬ c.exp < now)
    (himp : c.impersonated = true)
    (hrs : c.real_sub = some rs) (hrse : rs ≠ "") (hrsi : pyIntOfStr rs = some radm)
    (hsub : c.sub = some su) (hsue : su ≠ "") (hsui : pyIntOfStr su = some uid) :
    ((∀ a, findById db radm = some a → a.role ≠ .ADMIN) →
      refresh_token_endpoint cfg now db (some (.tok c)) = .error invalidRefreshErr) ∧
    (findById db uid = none →
      refresh_token_endpoint cfg now db (some (.tok c)) = .error invalidRefreshErr) ∧
    (∀ u a, findById db uid = some u → findById db radm = some a → a.role = .ADMIN →
      refresh_token_endpoint cfg now db (some (.tok c)) =
        .ok ⟨(create_impersonation_tokens cfg now u.id a.id).1,
             (create_impersonation_tokens cfg now u.id a.id).2⟩) := by
  have hsubT : strOptTruthy c.sub = true := by
    rw [hsub]
    simpa [strOptTruthy] using hsue
  have hpi : pyIntOfStr (c.sub.getD "") = some uid := by
    rw [hsub, Option.getD_some]
    exact hsui
  have hpi2 : pyIntOfStr (c.real_sub.getD "") = some radm := by
    rw [hrs, Option.getD_some]
    exact hrsi
  have hmark : (c.impersonated && strOptTruthy c.real_sub) = true := by
    rw [himp, hrs]
    simpa [strOptTruthy] using hrse
  have hbase := refresh_endpoint_payload cfg now db c hexp
  refine ⟨?_, ?_, ?_⟩
  · intro hnadm
    rw [hbase, refresh_payload_user cfg now db c uid hsubT hpi]
    rcases hu : findById db uid with _ | user
    · rfl
    · show refresh_sub_resolved cfg now db c user = .error invalidRefreshErr
      rw [refresh_sub_resolved_delegated cfg now db c user hmark,
        refresh_delegated_eq cfg now db c user radm hpi2]
      rcases ha : findById db radm with _ | admin
      · rfl
      · show (if admin.role != Role.ADMIN then (Except.error invalidRefreshErr : Except HErr TokenResp)
          else .ok ⟨(create_impersonation_tokens cfg now user.id admin.id).1,
                    (create_impersonation_tokens cfg now user.id admin.id).2⟩)
          = .error invalidRefreshErr
        rw [if_pos (by simpa using hnadm admin ha)]
  · intro hmiss
    rw [hbase, refresh_payload_user cfg now db c uid hsubT hpi, hmiss]
  · intro u a hu ha hadm
    rw [hbase, refresh_payload_user cfg now db c uid hsubT hpi, hu]
    show refresh_sub_resolved cfg now db c u = _
    rw [refresh_sub_resolved_delegated cfg now db c u hmark,
      refresh_delegated_eq cfg now db c u radm hpi2, ha]
    show (if a.role != Role.ADMIN then (Except.error invalidRefreshErr : Except HErr TokenResp)
      else .ok ⟨(create_impersonation_tokens cfg now u.id a.id).1,
                (create_impersonation_tokens cfg now u.id a.id).2⟩) = _
    rw [if_neg (by simp [hadm])]

def c5Admin : UserRec := { id := 2, role := .ADMIN }

def c5User : UserRec := { id := 1 }

def c5Claims : JwtClaims := { sub := some "1", real_sub := some "2", impersonated := true, exp := 100 }

def c5Cfg : Config := ⟨false, "bot-token", 60, 30⟩

/-- C5 counterexample to the claim as stated: a decodable delegated refresh
token whose real subject (id 2) exists and still holds the administrator
role, but whose acting-as subject (id 1) has no account.  The claim's
"otherwise" promises an issued impersonation pair; the code answers 401. -/
theorem c5_counterexample :
    decode_token 50 (.tok c5Claims) = .ok c5Claims ∧
    c5Claims.impersonated = true ∧ c5Claims.real_sub = some "2" ∧
    findById [c5Admin] 2 = some c5Admin ∧ c5Admin.role = .ADMIN ∧
    findById [c5Admin] 1 = none ∧
    refresh_token_endpoint c5Cfg 50 [c5Admin] (some (.tok c5Claims))
      = .error invalidRefreshErr :=
  ⟨rfl, rfl, rfl, rfl, rfl, rfl, rfl⟩

/-- C5 witness: with both accounts present and the real subject an admin, a
fresh impersonation pair is issued and the cookie rotated. -/
theorem c5_witness :
    refresh_token_endpoint c5Cfg 50 [c5User, c5Admin] (some (.tok c5Claims))
      = .ok ⟨(create_impersonation_tokens c5Cfg 50 1 2).1,
             (create_impersonation_tokens c5Cfg 50 1 2).2⟩ :=
  (c5_refresh_delegated c5Cfg 50 [c5User, c5Admin] c5Claims "1" "2" 1 2
    (by decide) rfl rfl (by decide) (by decide) rfl (by decide) (by decide)).2.2
    c5User c5Admin rfl rfl rfl

/-! ## Claim C2: characterization of signature verification -/

/-- C2 (amended).  Verification succeeds exactly when the payload carries a
non-empty string signature, a present and convertible auth timestamp at most
86400 seconds old, and a signature equal to the prescribed HMAC-SHA256 hex of
the canonical check string; under a fresh timestamp and non-empty ASCII
signature, any signature other than the prescribed one fails with
SignatureMismatch.  (In particular changing any byte of a matching signature
forces the mismatch error; changing a byte of a non-empty field value forces
it whenever the digest of the altered canonical string differs from the
received signature, which only an HMAC-SHA256 collision could prevent.) -/
theorem c2_signature_verification (now : Int) (tok : String) (d : Dict) :
    (validate_telegram_data now tok d = .ok () ↔
      ∃ r v a, dictGet "hash" d = some (.vStr r) ∧ r ≠ "" ∧
        dictGet "auth_date" (dictErase "hash" d) = some v ∧ v.toInt = some a ∧
        now - a ≤ 86400 ∧ r = telegramHash tok (dataCheckString (dictErase "hash" d))) ∧
    (∀ r v a, dictGet "hash" d = some (.vStr r) → r ≠ "" → isAsciiStr r = true →
      dictGet "auth_date" (dictErase "hash" d) = some v → v.toInt = some a →
      now - a ≤ 86400 →
      r ≠ telegramHash tok (dataCheckString (dictErase "hash" d)) →
      validate_telegram_data now tok d = .error mismatchErr) := by
  constructor
  · constructor
    · exact validate_ok_elim now tok d
    · rintro ⟨r, v, a, hh, _, ha, hi, hfresh, hr⟩
      exact validate_ok_of now tok d r v a hh ha hi hfresh hr
  · intro r v a hh hne hasc ha hi hfresh hr
    exact validate_mismatch_of now tok d r v a hh hne hasc ha hi hfresh hr

def c2Rest : Dict := [("auth_date", .vInt 0), ("id", .vInt 5)]

def c2Sig : String := telegramHash "testtoken" (dataCheckString c2Rest)

def c2D : Dict := ("hash", .vStr c2Sig) :: c2Rest

/-- C2 counterexample to the claim as stated: a payload whose received
signature equals the prescribed HMAC of its canonical string but whose auth
timestamp is stale is rejected with the expiry error, not accepted. -/
theorem c2_counterexample :
    dictGet "hash" c2D = some (.vStr c2Sig) ∧
    c2Sig = telegramHash "testtoken" (dataCheckString (dictErase "hash" c2D)) ∧
    validate_telegram_data 1000000 "testtoken" c2D = .error expiredErr := by
  refine ⟨rfl, rfl, ?_⟩
  refine validate_expired_stale 1000000 "testtoken" c2D (.vInt 0) 0 ?_ rfl rfl (by norm_num)
  show PyVal.truthy (.vStr c2Sig) = true
  simpa [PyVal.truthy] using telegramHash_ne_empty "testtoken" (dataCheckString c2Rest)

def c2WD : Dict := [("auth_date", .vInt 999999), ("hash", .vStr "ab"), ("id", .vInt 5)]

/-- C2 witness: a fresh payload whose two-character signature cannot equal
the 64-character prescribed digest fails with the signature-mismatch error. -/
theorem c2_witness :
    validate_telegram_data 1000000 "testtoken" c2WD = .error mismatchErr :=
  (c2_signature_verification 1000000 "testtoken" c2WD).2 "ab" (.vInt 999999) 999999
    rfl (by decide) (by decide) rfl rfl (by norm_num)
    (fun h => by
      have hl := congrArg String.length h
      rw [telegramHash_length] at hl
      exact absurd hl (by decide))

/-! ## Claim C3: stale assertions are rejected -/

/-- C3 (amended).  Except for the local-dev mock bypass, every login whose
payload's auth timestamp lies more than 86400 seconds before verification
time is rejected: with the expiry error when the payload carries a non-empty
signature value, and with the missing-signature error when the signature is
empty; in both endpoint variants the database is left unchanged. -/
theorem c3_stale_assertion_rejected :
    (∀ cfg now gen db (data : UserLoginIn), mockBypass cfg data = false →
      86400 < now - data.auth_date →
      login cfg now gen db data =
        (db, .error (if data.hash ≠ "" then expiredErr else noHashErr))) ∧
    (∀ cfg now db (data : ApiLoginIn), 86400 < now - data.auth_date →
      api_login cfg now db data =
        (db, .error (if data.hash ≠ "" then expiredErr else noHashErr))) := by
  constructor
  · intro cfg now gen db data hm hstale
    have h1 : dictGet "hash" (dictErase "invite_ref_code" (loginDump data))
        = some (.vStr data.hash) := rfl
    have h2 : dictGet "auth_date" (dictErase "hash" (dictErase "invite_ref_code" (loginDump data)))
        = some (.vInt data.auth_date) := rfl
    unfold login
    rw [if_neg (by simp [hm])]
    by_cases hh : data.hash = ""
    · have hval := validate_noHash now cfg.botToken
        (dictErase "invite_ref_code" (loginDump data))
        (by rw [h1]; simp [optTruthy, PyVal.truthy, hh])
      rw [hval, if_neg (not_not_intro hh)]
    · have hval := validate_expired_stale now cfg.botToken
        (dictErase "invite_ref_code" (loginDump data)) (.vInt data.auth_date) data.auth_date
        (by rw [h1]; simpa [optTruthy, PyVal.truthy] using hh) h2 rfl hstale
      rw [hval, if_pos hh]
  · intro cfg now db data hstale
    have h1 : dictGet "hash" (apiLoginDump data) = some (.vStr data.hash) := rfl
    have h2 : dictGet "auth_date" (dictErase "hash" (apiLoginDump data))
        = some (.vInt data.auth_date) := rfl
    unfold api_login
    by_cases hh : data.hash = ""
    · have hval := validate_noHash now cfg.botToken (apiLoginDump data)
        (by rw [h1]; simp [optTruthy, PyVal.truthy, hh])
      rw [hval, if_neg (not_not_intro hh)]
    · have hval := validate_expired_stale now cfg.botToken (apiLoginDump data)
        (.vInt data.auth_date) data.auth_date
        (by rw [h1]; simpa [optTruthy, PyVal.truthy] using hh) h2 rfl hstale
      rw [hval, if_pos hh]

def c3Cfg : Config := ⟨true, "tok3", 60, 30⟩

def c3Data : UserLoginIn :=
  { id := 359107176, auth_date := 0, hash := "mock", first_name := some "Mike",
    username := some "mike" }

/-- C3 counterexample to the claim as stated: in a local-dev deployment the
mock bypass accepts the login for the mock account even though its auth
timestamp is 999999 seconds old, so a stale assertion is not always
rejected. -/
theorem c3_counterexample :
    86400 < (999999 : Int) - c3Data.auth_date ∧
    login c3Cfg 999999 (fun _ => "AAAA0000") [] c3Data
      = ([], .ok ⟨create_access_token c3Cfg 999999 { sub := some (toString DEV_MOCK_USER_ID) },
                  set_refresh_cookie c3Cfg 999999 DEV_MOCK_USER_ID⟩) :=
  ⟨by decide, rfl⟩

/-- C3 witness: a stale non-mock login with a non-empty signature is rejected
with the expiry error and no database change. -/
theorem c3_witness :
    login ⟨false, "tok3", 60, 30⟩ 999999 (fun _ => "AAAA0000") []
        { id := 42, auth_date := 1, hash := "beef" }
      = ([], .error (if ("beef" : String) ≠ "" then expiredErr else noHashErr)) :=
  c3_stale_assertion_rejected.1 ⟨false, "tok3", 60, 30⟩ 999999 (fun _ => "AAAA0000") []
    { id := 42, auth_date := 1, hash := "beef" } rfl (by norm_num)

/-! ## Claim C1: accepted logins are verified -/

/-- C1 (amended).  Every login the `POST /auth` endpoint accepts has either
passed provider-signature verification or is the local-development mock
bypass (local deployment, mock hash, mock id); the unified-login variant has
no bypass, so every accepted login there has passed verification. -/
theorem c1_accepted_login_verified :
    (∀ cfg now gen db data db' r, login cfg now gen db data = (db', .ok r) →
      mockBypass cfg data = true ∨
      validate_telegram_data now cfg.botToken
        (dictErase "invite_ref_code" (loginDump data)) = .ok ()) ∧
    (∀ cfg now db data db' r, api_login cfg now db data = (db', .ok r) →
      validate_telegram_data now cfg.botToken (apiLoginDump data) = .ok ()) := by
  constructor
  · intro cfg now gen db data db' r h
    by_cases hm : mockBypass cfg data = true
    · exact Or.inl hm
    · right
      have hm' : mockBypass cfg data = false := by
        revert hm
        cases mockBypass cfg data <;> simp
      unfold login at h
      rw [if_neg (by simp [hm'])] at h
      rcases hv : validate_telegram_data now cfg.botToken
          (dictErase "invite_ref_code" (loginDump data)) with e | u
      · rw [hv] at h
        have h2 : (db, (Except.error e : Except HErr TokenResp)) = (db', .ok r) := h
        injection h2 with h2a h2b
        cases h2b
      · rfl
  · intro cfg now db data db' r h
    unfold api_login at h
    rcases hv : validate_telegram_data now cfg.botToken (apiLoginDump data) with e | u
    · rw [hv] at h
      have h2 : (db, (Except.error e : Except HErr TokenResp)) = (db', .ok r) := h
      injection h2 with h2a h2b
      cases h2b
    · rfl

def c1Cfg : Config := ⟨true, "tok1", 60, 30⟩

def c1Data : UserLoginIn := { id := 359107176, auth_date := 100, hash := "mock" }

/-- C1 counterexample to the claim as stated: in a local-dev deployment the
mock payload is accepted (an access token is returned and the refresh cookie
set) even though signature verification rejects that very payload. -/
theorem c1_counterexample :
    login c1Cfg 987654 (fun _ => "BBBB0000") [] c1Data
      = ([], .ok ⟨create_access_token c1Cfg 987654 { sub := some (toString DEV_MOCK_USER_ID) },
                  set_refresh_cookie c1Cfg 987654 DEV_MOCK_USER_ID⟩) ∧
    validate_telegram_data 987654 c1Cfg.botToken
      (dictErase "invite_ref_code" (loginDump c1Data)) = .error expiredErr :=
  ⟨rfl, rfl⟩

/-- C1 witness: the accepted mock login satisfies the disjunction through its
left (bypass) disjunct. -/
theorem c1_witness :
    mockBypass c1Cfg c1Data = true ∨
    validate_telegram_data 5 c1Cfg.botToken
      (dictErase "invite_ref_code" (loginDump c1Data)) = .ok () :=
  c1_accepted_login_verified.1 c1Cfg 5 (fun _ => "BBBB0000") [] c1Data []
    ⟨create_access_token c1Cfg 5 { sub := some (toString DEV_MOCK_USER_ID) },
     set_refresh_cookie c1Cfg 5 DEV_MOCK_USER_ID⟩ rfl

/-! ## Claims C6 and C7: the referral link -/

theorem resolveReferrer_ne_self (db : DB) (selfId : Int) (invite : Option String) (r : UserRec)
    (h : resolveReferrer db selfId invite = some r) : r.id ≠ selfId := by
  unfold resolveReferrer at h
  by_cases ht : strOptTruthy invite = true
  · rw [if_pos ht] at h
    rcases hf : findByRefCode db (invite.getD "") with _ | rr
    · rw [hf] at h
      cases h
    · rw [hf] at h
      have h2 : (if (rr.id == selfId) = true then none else some rr) = some r := h
      by_cases hid : (rr.id == selfId) = true
      · rw [if_pos hid] at h2
        cases h2
      · rw [if_neg hid] at h2
        injection h2 with h'
        subst h'
        simpa using hid
  · rw [if_neg (by simpa using ht)] at h
    cases h

theorem mem_updateById_pres (db : DB) (i : Int) (f : UserRec → UserRec)
    (hf : ∀ w, (f w).id = w.id ∧ (f w).referred_by = w.referred_by) :
    ∀ u' ∈ updateById db i f, ∃ w ∈ db, u'.id = w.id ∧ u'.referred_by = w.referred_by := by
  intro u' h
  obtain ⟨w, hw, he⟩ := mem_updateById db i f u' h
  by_cases hc : (w.id == i) = true
  · rw [if_pos hc] at he
    subst he
    exact ⟨w, hw, (hf w).1, (hf w).2⟩
  · rw [if_neg hc] at he
    subst he
    exact ⟨u', hw, rfl, rfl⟩

theorem referralBackfill_mem (db : DB) (user : UserRec) (referrer : Option UserRec) :
    ∀ u' ∈ referralBackfill db user referrer, ∃ w ∈ db, u'.id = w.id ∧
      (u'.referred_by = w.referred_by ∨
       ∃ r, referrer = some r ∧ r.id ≠ user.id ∧ user.referred_by = none ∧
         u'.referred_by = some r.id ∧ u'.id = user.id) := by
  intro u' h
  unfold referralBackfill at h
  rcases referrer with _ | r
  · exact ⟨u', h, rfl, Or.inl rfl⟩
  · have h2 : u' ∈ (if (user.referred_by.isNone && user.license_end_date.isNone
        && (r.id != user.id)) = true
        then updateById db user.id (fun w => { w with referred_by := some r.id })
        else db) := h
    by_cases hg : (user.referred_by.isNone && user.license_end_date.isNone
        && (r.id != user.id)) = true
    · rw [if_pos hg] at h2
      simp only [Bool.and_eq_true, bne_iff_ne, Option.isNone_iff_eq_none] at hg
      obtain ⟨w, hw, he⟩ :=
        mem_updateById db user.id (fun w => { w with referred_by := some r.id }) u' h2
      by_cases hwi : (w.id == user.id) = true
      · rw [if_pos hwi] at he
        subst he
        exact ⟨w, hw, rfl,
          Or.inr ⟨r, rfl, hg.2, hg.1.1, rfl, by simpa using hwi⟩⟩
      · rw [if_neg hwi] at he
        subst he
        exact ⟨u', hw, rfl, Or.inl rfl⟩
    · rw [if_neg hg] at h2
      exact ⟨u', h2, rfl, Or.inl rfl⟩

/-- How one login call can reshape the account table: every row of the output
either inherits its id and `referred_by` from an input row, or is the freshly
created account (whose referrer, if any, came from a non-self invite code),
or is the fetched account with a previously null `referred_by` backfilled
from a non-self referrer. -/
theorem login_db_shape (cfg : Config) (now : Int) (gen : Nat → String) (db : DB)
    (data : UserLoginIn) (db' : DB) (res : Except HErr TokenResp)
    (h : login cfg now gen db data = (db', res)) :
    ∀ u' ∈ db',
      (∃ w ∈ db, u'.id = w.id ∧ u'.referred_by = w.referred_by) ∨
      (findById db data.id = none ∧ u'.id = data.id ∧
        (u'.referred_by = none ∨
          ∃ r, resolveReferrer db data.id data.invite_ref_code = some r ∧
            u'.referred_by = some r.id ∧ r.id ≠ data.id)) ∨
      (∃ user r, findById db data.id = some user ∧ user.referred_by = none ∧
        resolveReferrer db data.id data.invite_ref_code = some r ∧ r.id ≠ user.id ∧
        u'.id = user.id ∧ u'.referred_by = some r.id) := by
  have hprofile : ∀ w : UserRec,
      (profileApply data w).id = w.id ∧ (profileApply data w).referred_by = w.referred_by :=
    fun w => ⟨rfl, rfl⟩
  by_cases hm : mockBypass cfg data = true
  · unfold login at h
    rw [if_pos hm] at h
    injection h with hdb hres
    subst hdb
    intro u' hu'
    exact Or.inl ⟨u', hu', rfl, rfl⟩
  · have hm' : mockBypass cfg data = false := by
      revert hm
      cases mockBypass cfg data <;> simp
    unfold login at h
    rw [if_neg (by simp [hm'])] at h
    rcases hv : validate_telegram_data now cfg.botToken
        (dictErase "invite_ref_code" (loginDump data)) with e | u
    · rw [hv] at h
      have h2 : (db, (Except.error e : Except HErr TokenResp)) = (db', res) := h
      injection h2 with hdb hres
      subst hdb
      intro u' hu'
      exact Or.inl ⟨u', hu', rfl, rfl⟩
    · rw [hv] at h
      have h' : login_verified cfg now gen db data = (db', res) := h
      unfold login_verified at h'
      rcases hf : findById db data.id with _ | user
      · rw [hf] at h'
        have h'' : login_new cfg now gen db data
            (resolveReferrer db data.id data.invite_ref_code) = (db', res) := h'
        unfold login_new at h''
        rcases hc : create_unique_ref_code gen db with e2 | code
        · rw [hc] at h''
          have h3 : (db, (Except.error e2 : Except HErr TokenResp)) = (db', res) := h''
          injection h3 with hdb hres
          subst hdb
          intro u' hu'
          exact Or.inl ⟨u', hu', rfl, rfl⟩
        · rw [hc] at h''
          injection h'' with hdb hres
          subst hdb
          intro u' hu'
          rcases List.mem_append.mp hu' with hin | hnew
          · exact Or.inl ⟨u', hin, rfl, rfl⟩
          · rcases List.mem_singleton.mp hnew with rfl
            right
            left
            refine ⟨rfl, rfl, ?_⟩
            rcases hr : resolveReferrer db data.id data.invite_ref_code with _ | r
            · exact Or.inl rfl
            · exact Or.inr
                ⟨r, rfl, rfl, resolveReferrer_ne_self db data.id data.invite_ref_code r hr⟩
      · rw [hf] at h'
        have h'' : login_existing cfg now gen db data user
            (resolveReferrer db data.id data.invite_ref_code) = (db', res) := h'
        unfold login_existing at h''
        by_cases htr : strOptTruthy user.ref_code = true
        · rw [if_pos htr] at h''
          have h3 : (referralBackfill (profileSync db data user.id) user
              (resolveReferrer db data.id data.invite_ref_code),
              (Except.ok ⟨create_access_token cfg now { sub := some (toString user.id) },
                set_refresh_cookie cfg now user.id⟩ : Except HErr TokenResp)) = (db', res) := h''
          injection h3 with hdb hres
          subst hdb
          intro u' hu'
          obtain ⟨w1, hw1, hid1, hcase⟩ :=
            referralBackfill_mem (profileSync db data user.id) user _ u' hu'
          obtain ⟨w, hw, hid2, href2⟩ :=
            mem_updateById_pres db user.id (profileApply data) hprofile w1 hw1
          rcases hcase with hplain | ⟨r, hrr, hrne, hunone, hset, hid3⟩
          · exact Or.inl ⟨w, hw, hid1.trans hid2, hplain.trans href2⟩
          · exact Or.inr (Or.inr ⟨user, r, rfl, hunone, hrr, hrne, hid3, hset⟩)
        · rw [if_neg htr] at h''
          rcases hc : create_unique_ref_code gen (profileSync db data user.id) with e2 | code
          · rw [hc] at h''
            have h3 : (profileSync db data user.id,
                (Except.error e2 : Except HErr TokenResp)) = (db', res) := h''
            injection h3 with hdb hres
            subst hdb
            intro u' hu'
            obtain ⟨w, hw, hid2, href2⟩ :=
              mem_updateById_pres db user.id (profileApply data) hprofile u' hu'
            exact Or.inl ⟨w, hw, hid2, href2⟩
          · rw [hc] at h''
            have h3 : (referralBackfill
                (updateById (profileSync db data user.id) user.id (refCodeApply code))
                { user with ref_code := some code }
                (resolveReferrer db data.id data.invite_ref_code),
                (Except.ok ⟨create_access_token cfg now { sub := some (toString user.id) },
                  set_refresh_cookie cfg now user.id⟩ : Except HErr TokenResp)) = (db', res) := h''
            injection h3 with hdb hres
            subst hdb
            intro u' hu'
            obtain ⟨w1, hw1, hid1, hcase⟩ := referralBackfill_mem _ _ _ u' hu'
            obtain ⟨w2, hw2, hid2, href2⟩ := mem_updateById_pres
              (profileSync db data user.id) user.id (refCodeApply code)
              (fun w => ⟨rfl, rfl⟩) w1 hw1
            obtain ⟨w, hw, hid3, href3⟩ :=
              mem_updateById_pres db user.id (profileApply data) hprofile w2 hw2
            rcases hcase with hplain | ⟨r, hrr, hrne, hunone, hset, hid4⟩
            · exact Or.inl ⟨w, hw, (hid1.trans hid2).trans hid3,
                (hplain.trans href2).trans href3⟩
            · exact Or.inr (Or.inr ⟨user, r, rfl, hunone, hrr, hrne, hid4, hset⟩)

/-- C6.  A login never changes an already-set `referred_by` of any account
(whatever invite code it supplies), and never introduces a self-referential
`referred_by`. -/
theorem c6_referred_by_permanent (cfg : Config) (now : Int) (gen : Nat → String) (db : DB)
    (data : UserLoginIn) (db' : DB) (res : Except HErr TokenResp)
    (hnd : NodupIds db) (h : login cfg now gen db data = (db', res)) :
    (∀ u ∈ db, ∀ r, u.referred_by = some r →
      ∀ u' ∈ db', u'.id = u.id → u'.referred_by = some r) ∧
    (∀ u' ∈ db', u'.referred_by = some u'.id →
      ∃ u ∈ db, u.id = u'.id ∧ u.referred_by = some u.id) := by
  have hshape := login_db_shape cfg now gen db data db' res h
  constructor
  · intro u hu r hr u' hu' hid
    rcases hshape u' hu' with ⟨w, hw, hid1, href1⟩ | ⟨hmiss, hid2, _⟩ |
        ⟨user, r2, hfind, hun, _, _, hid3, _⟩
    · have hwu : w = u := nodupIds_id_inj db hnd w u hw hu (by rw [← hid1, hid])
      rw [href1, hwu, hr]
    · exact absurd (by rw [← hid, hid2]) (findById_none db data.id hmiss u hu)
    · have huser : user ∈ db ∧ user.id = data.id := findById_some db data.id user hfind
      have huu : u = user := nodupIds_id_inj db hnd u user hu huser.1 (by rw [← hid, hid3])
      rw [huu, hun] at hr
      cases hr
  · intro u' hu' hself
    rcases hshape u' hu' with ⟨w, hw, hid1, href1⟩ | ⟨_, hid2, hrb⟩ |
        ⟨user, r2, _, _, _, hrne, hid3, hset⟩
    · refine ⟨w, hw, hid1.symm, ?_⟩
      rw [← href1, hself, hid1]
    · rcases hrb with hn | ⟨r, _, hset, hrne⟩
      · rw [hn] at hself
        cases hself
      · rw [hset] at hself
        injection hself with he
        exact absurd (by rw [he]; exact hid2) hrne
    · rw [hset] at hself
      injection hself with he
      exact absurd (by rw [he]; exact hid3) hrne

/-- C6 witness: a rejected (stale) login leaves a table with an established
referral untouched, satisfying both conjuncts concretely. -/
theorem c6_witness :
    (∀ u ∈ [({ id := 5, referred_by := some 9 } : UserRec), { id := 9 }], ∀ r : Int,
      u.referred_by = some r →
      ∀ u' ∈ [({ id := 5, referred_by := some 9 } : UserRec), { id := 9 }],
        u'.id = u.id → u'.referred_by = some r) ∧
    (∀ u' ∈ [({ id := 5, referred_by := some 9 } : UserRec), { id := 9 }],
      u'.referred_by = some u'.id →
      ∃ u ∈ [({ id := 5, referred_by := some 9 } : UserRec), { id := 9 }],
        u.id = u'.id ∧ u.referred_by = some u.id) :=
  c6_referred_by_permanent ⟨false, "tok6", 60, 30⟩ 999999 (fun _ => "CCCC0000")
    [{ id := 5, referred_by := some 9 }, { id := 9 }]
    { id := 5, auth_date := 1, hash := "beef" }
    [{ id := 5, referred_by := some 9 }, { id := 9 }] (.error expiredErr)
    (by decide) rfl


/-- How one `referralBackfill` call reshapes the rows carrying the account's
id, given that the base table already agrees with the account on
`referred_by` at that id. -/
theorem backfill_row (dbx : DB) (user rr : UserRec)
    (hne : rr.id ≠ user.id)
    (hpres : ∀ u'' ∈ dbx, u''.id = user.id → u''.referred_by = user.referred_by) :
    ∀ u' ∈ referralBackfill dbx user (some rr), u'.id = user.id →
      u'.referred_by = (if user.referred_by = none ∧ user.license_end_date = none
                        then some rr.id else user.referred_by) := by
  intro u' hu' hid
  have hu2 : u' ∈ (if (user.referred_by.isNone && user.license_end_date.isNone
      && (rr.id != user.id)) = true
      then updateById dbx user.id (fun w => { w with referred_by := some rr.id })
      else dbx) := hu'
  by_cases hcond : user.referred_by = none ∧ user.license_end_date = none
  · have hg : (user.referred_by.isNone && user.license_end_date.isNone
        && (rr.id != user.id)) = true := by
      simp [Option.isNone_iff_eq_none, hcond.1, hcond.2, bne_iff_ne, hne]
    rw [if_pos hg] at hu2
    obtain ⟨w, _, he⟩ := mem_updateById dbx user.id
      (fun w => { w with referred_by := some rr.id }) u' hu2
    by_cases hwi : (w.id == user.id) = true
    · rw [if_pos hwi] at he
      subst he
      rw [if_pos hcond]
    · rw [if_neg hwi] at he
      subst he
      exact absurd (by simp [hid]) hwi
  · have hg : ¬((user.referred_by.isNone && user.license_end_date.isNone
        && (rr.id != user.id)) = true) := by
      intro hgc
      simp only [Bool.and_eq_true, Option.isNone_iff_eq_none] at hgc
      exact hcond ⟨hgc.1.1, hgc.1.2⟩
    rw [if_neg hg] at hu2
    rw [if_neg hcond]
    exact hpres u' hu2 hid

/-- C7 (amended).  On a verified (non-bypass) login of an existing account
that supplies an invite code resolving to a referring account: when the
login succeeds, the stored `referred_by` of that account afterwards is
`some referrer.id` exactly when the account had no prior referrer AND its
license expiry timestamp was absent — a present expiry timestamp, even one
already in the past at login time, blocks the backfill (the guard never
consults the clock) — and otherwise `referred_by` is unchanged; when the
login fails (referral-code allocation exhaustion for an account lacking a
stored code), `referred_by` is likewise unchanged. -/
theorem c7_referral_backfill (cfg : Config) (now : Int) (gen : Nat → String) (db : DB)
    (data : UserLoginIn) (user rr : UserRec) (db' : DB) (res : Except HErr TokenResp)
    (hnd : NodupIds db)
    (hm : mockBypass cfg data = false)
    (hv : validate_telegram_data now cfg.botToken
      (dictErase "invite_ref_code" (loginDump data)) = .ok ())
    (hfind : findById db data.id = some user)
    (hr : resolveReferrer db data.id data.invite_ref_code = some rr)
    (h : login cfg now gen db data = (db', res)) :
    (∀ tr, res = .ok tr → ∀ u' ∈ db', u'.id = user.id →
      u'.referred_by = (if user.referred_by = none ∧ user.license_end_date = none
                        then some rr.id else user.referred_by)) ∧
    (∀ e, res = .error e → ∀ u' ∈ db', u'.id = user.id →
      u'.referred_by = user.referred_by) := by
  have hne : rr.id ≠ user.id := by
    rw [(findById_some db data.id user hfind).2]
    exact resolveReferrer_ne_self db data.id data.invite_ref_code rr hr
  have hpres1 : ∀ u'' ∈ profileSync db data user.id, u''.id = user.id →
      u''.referred_by = user.referred_by := by
    intro u'' hu'' hid''
    obtain ⟨w, hw, hidw, hrefw⟩ := mem_updateById_pres db user.id (profileApply data)
      (fun w => ⟨rfl, rfl⟩) u'' hu''
    have hweq : w = user := nodupIds_id_inj db hnd w user hw
      (findById_some db data.id user hfind).1 (by rw [← hidw]; exact hid'')
    rw [hrefw, hweq]
  unfold login at h
  rw [if_neg (by simp [hm]), hv] at h
  have h' : login_verified cfg now gen db data = (db', res) := h
  unfold login_verified at h'
  rw [hfind] at h'
  have h'' : login_existing cfg now gen db data user
      (resolveReferrer db data.id data.invite_ref_code) = (db', res) := h'
  unfold login_existing at h''
  rw [hr] at h''
  by_cases htr : strOptTruthy user.ref_code = true
  · rw [if_pos htr] at h''
    have h3 : (referralBackfill (profileSync db data user.id) user (some rr),
        (Except.ok ⟨create_access_token cfg now { sub := some (toString user.id) },
          set_refresh_cookie cfg now user.id⟩ : Except HErr TokenResp)) = (db', res) := h''
    injection h3 with hdb hres
    subst hdb
    subst hres
    constructor
    · intro tr _ u' hu' hid
      exact backfill_row (profileSync db data user.id) user rr hne hpres1 u' hu' hid
    · intro e he
      cases he
  · rw [if_neg htr] at h''
    rcases hc : create_unique_ref_code gen (profileSync db data user.id) with e2 | code
    · rw [hc] at h''
      have h3 : (profileSync db data user.id,
          (Except.error e2 : Except HErr TokenResp)) = (db', res) := h''
      injection h3 with hdb hres
      subst hdb
      subst hres
      constructor
      · intro tr htr2
        cases htr2
      · intro e _ u' hu' hid
        exact hpres1 u' hu' hid
    · rw [hc] at h''
      have h3 : (referralBackfill
          (updateById (profileSync db data user.id) user.id (refCodeApply code))
          { user with ref_code := some code } (some rr),
          (Except.ok ⟨create_access_token cfg now { sub := some (toString user.id) },
            set_refresh_cookie cfg now user.id⟩ : Except HErr TokenResp)) = (db', res) := h''
      injection h3 with hdb hres
      subst hdb
      subst hres
      have hpres2 : ∀ u'' ∈ updateById (profileSync db data user.id) user.id
          (refCodeApply code), u''.id = user.id → u''.referred_by = user.referred_by := by
        intro u'' hu'' hid''
        obtain ⟨w2, hw2, hid2, href2⟩ := mem_updateById_pres (profileSync db data user.id)
          user.id (refCodeApply code) (fun w => ⟨rfl, rfl⟩) u'' hu''
        rw [href2]
        exact hpres1 w2 hw2 (by rw [← hid2]; exact hid'')
      constructor
      · intro tr _ u' hu' hid
        have hu3 : u' ∈ referralBackfill
            (updateById (profileSync db data user.id) user.id (refCodeApply code))
            user (some rr) := hu'
        exact backfill_row
          (updateById (profileSync db data user.id) user.id (refCodeApply code))
          user rr hne hpres2 u' hu3 hid
      · intro e he
        cases he

def c7Tok : String := "bottoken7"

/-- The canonical dictionary of the C7 payload (signature and invite code
removed). -/
def c7Rest : Dict :=
  [("id", .vInt 1), ("auth_date", .vInt 999000), ("first_name", .vNone),
   ("last_name", .vNone), ("username", .vStr "alice"), ("photo_url", .vNone)]

def c7Hash : String := telegramHash c7Tok (dataCheckString c7Rest)

def c7Cfg : Config := ⟨false, c7Tok, 60, 30⟩

def c7Ref : UserRec := { id := 2, ref_code := some "REF22222" }

/-- The C7 account: no prior referrer, but a license expiry timestamp that
is present and already in the past. -/
def c7User : UserRec :=
  { id := 1, username := some "alice", license_end_date := some 0,
    ref_code := some "AAAA1111" }

def c7Data : UserLoginIn :=
  { id := 1, auth_date := 999000, hash := c7Hash, username := some "alice",
    invite_ref_code := some "REF22222" }

/-- C7 counterexample to the claim as stated: an existing account with no
prior referrer whose license expiry timestamp lies in the past (`some 0`
against verification time `999100`) logs in with a correctly signed, fresh
payload carrying a valid non-self invite code that resolves to a referring
account — yet the referrer link is NOT backfilled: the table comes back
unchanged, because the guard tests only the presence of the expiry
timestamp, never whether it is in the future. -/
theorem c7_counterexample :
    c7User.referred_by = none ∧
    c7User.license_end_date = some 0 ∧
    (0 : Int) < 999100 ∧
    findById [c7User, c7Ref] c7Data.id = some c7User ∧
    resolveReferrer [c7User, c7Ref] c7Data.id c7Data.invite_ref_code = some c7Ref ∧
    c7Ref.id ≠ c7User.id ∧
    login c7Cfg 999100 (fun _ => "ZZZZ9999") [c7User, c7Ref] c7Data
      = ([c7User, c7Ref],
         .ok ⟨create_access_token c7Cfg 999100 { sub := some (toString (1 : Int)) },
              set_refresh_cookie c7Cfg 999100 1⟩) := by
  refine ⟨rfl, rfl, by norm_num, rfl, rfl, by decide, ?_⟩
  have hmb : mockBypass c7Cfg c7Data = false := rfl
  have hval : validate_telegram_data 999100 c7Cfg.botToken
      (dictErase "invite_ref_code" (loginDump c7Data)) = .ok () :=
    validate_ok_of 999100 c7Cfg.botToken (dictErase "invite_ref_code" (loginDump c7Data))
      c7Hash (.vInt 999000) 999000 rfl rfl rfl (by norm_num) rfl
  unfold login
  rw [if_neg (by simp [hmb]), hval]
  rfl

/-- The C7 witness account: identical to the counterexample's account except
that the license expiry timestamp is absent. -/
def c7WUser : UserRec :=
  { id := 1, username := some "alice", ref_code := some "AAAA1111" }

/-- C7 witness: with the license expiry timestamp absent (and no prior
referrer) the same login succeeds and does backfill the referrer link, and
the account's row in the output table carries the referrer's id. -/
theorem c7_witness :
    NodupIds [c7WUser, c7Ref] ∧
    ({ c7WUser with referred_by := some c7Ref.id } : UserRec).referred_by
      = (if c7WUser.referred_by = none ∧ c7WUser.license_end_date = none
         then some c7Ref.id else c7WUser.referred_by) := by
  refine ⟨by decide, ?_⟩
  have hmb : mockBypass c7Cfg c7Data = false := rfl
  have hval : validate_telegram_data 999100 c7Cfg.botToken
      (dictErase "invite_ref_code" (loginDump c7Data)) = .ok () :=
    validate_ok_of 999100 c7Cfg.botToken (dictErase "invite_ref_code" (loginDump c7Data))
      c7Hash (.vInt 999000) 999000 rfl rfl rfl (by norm_num) rfl
  have h : login c7Cfg 999100 (fun _ => "ZZZZ9999") [c7WUser, c7Ref] c7Data
      = ([{ c7WUser with referred_by := some c7Ref.id }, c7Ref],
         .ok ⟨create_access_token c7Cfg 999100 { sub := some (toString (1 : Int)) },
              set_refresh_cookie c7Cfg 999100 1⟩) := by
    unfold login
    rw [if_neg (by simp [hmb]), hval]
    rfl
  exact (c7_referral_backfill c7Cfg 999100 (fun _ => "ZZZZ9999") [c7WUser, c7Ref] c7Data
      c7WUser c7Ref _ _ (by decide) hmb hval rfl rfl h).1
    ⟨create_access_token c7Cfg 999100 { sub := some (toString (1 : Int)) },
     set_refresh_cookie c7Cfg 999100 1⟩ rfl
    { c7WUser with referred_by := some c7Ref.id } (List.mem_cons_self _ _) rfl
